import Mathlib

/-!
# gh-patch-parser: the pull-request review handler

A shallow embedding of `Handler.HandleMessage` (src/main.go, lines 47-170).

The handler is sequential Go code that talks to collaborators whose code is
not part of `main.go`: the webhook decoder, the GitHub client, the git
checkout, the gofmt check, the temp-directory call.  Every collaborator is an
oracle of the environment `Env`; each oracle sees the whole history of the run
(the `World` at the time of the call), so an oracle may answer differently on
each call.  Every collaborator call is recorded, with its arguments and its
answer, in `World.trace`, in program order.  Log lines go to `World.logs`.
Directories made by `ioutil.TempDir` are kept in `World.dirs`.

Go `int` is embedded as `Int`: the handler does no arithmetic on it, it only
prints it and compares `pr.Commits` with 1.  Pointer fields are taken to be
non-nil, as the decoder guarantees for `prHook.PullRequest`.
-/

namespace GhPatchParser

/-! ## Data model -/

/-- Modelled from the spec: the error value `MergeError` is declared next to
`checkout`, outside src/main.go; the spec calls it the distinguished
merge-conflict outcome of checkout.  Go errors are compared by identity
(`err == MergeError`), so the embedding has one constructor for that value
and one for every other error. -/
inductive Err where
  | MergeError
  | other (msg : String)
  deriving DecidableEq, Repr

/-- Owner of a repository in the hook payload (`Base.Repo.Owner`). -/
structure HookOwner where
  Login : String
  deriving DecidableEq, Repr

/-- Repository in the hook payload (`Base.Repo`). -/
structure HookRepo where
  Name : String
  Owner : HookOwner
  deriving DecidableEq, Repr

/-- Base branch of the hook payload (`PullRequest.Base`). -/
structure HookBase where
  Repo : HookRepo
  deriving DecidableEq, Repr

/-- The fields of the hook's `PullRequest` that the handler reads. -/
structure HookPullRequest where
  Url : String
  Title : String
  Base : HookBase
  deriving DecidableEq, Repr

/-- The decoded webhook, `github.PullRequestHook`: the fields the handler reads. -/
structure PullRequestHook where
  Action : String
  Number : Int
  PullRequest : HookPullRequest
  deriving DecidableEq, Repr

/-- Modelled from the spec: `IsOpened` is a method of the decoding library, not
in src/; the spec says only a decoded event with action = "opened" proceeds. -/
def PullRequestHook.IsOpened (prHook : PullRequestHook) : Bool :=
  prHook.Action == "opened"

/-- Repository of the head branch of the fetched pull request (`pr.Head.Repo`). -/
structure HeadRepo where
  SSHURL : String
  deriving DecidableEq, Repr

/-- Head branch of the fetched pull request (`pr.Head`). -/
structure PRHead where
  Ref : String
  Repo : HeadRepo
  deriving DecidableEq, Repr

/-- Repository of the base branch of the fetched pull request (`pr.Base.Repo`). -/
structure BaseRepo where
  HTMLURL : String
  deriving DecidableEq, Repr

/-- Base branch of the fetched pull request (`pr.Base`). -/
structure PRBase where
  Repo : BaseRepo
  deriving DecidableEq, Repr

/-- The pull request returned by `getPR` (`octokat.PullRequest`): the fields
the handler reads.  The value is passed whole to `isDocsOnly`,
`commitsAreSigned` and `checkGofmt`. -/
structure PullRequest where
  Head : PRHead
  Base : PRBase
  Commits : Int
  deriving DecidableEq, Repr

/-- The value `octokat.Repo` built at lines 87-90. -/
structure Repo where
  Name : String
  UserName : String
  deriving DecidableEq, Repr

/-- The value `octokat.Issue` built at lines 95-97. -/
structure Issue where
  Number : Int
  deriving DecidableEq, Repr

/-- The GitHub client, as far as the handler configures it: the access token. -/
structure Client where
  Token : String
  deriving DecidableEq, Repr

/-- The client `octokat.NewClient()` of line 85: no token yet. -/
def NewClient : Client := ⟨""⟩

/-- The call `gh.WithToken(token)` of line 86. -/
def Client.WithToken (_gh : Client) (token : String) : Client := ⟨token⟩

/-- The receiver of `HandleMessage` (lines 43-45). -/
structure Handler where
  GHToken : String
  deriving DecidableEq, Repr

/-- The queue message `nsq.Message`: the handler reads its body only. -/
structure Message where
  Body : List Nat
  deriving DecidableEq, Repr

/-- Result of a collaborator that returns a value or an error. -/
inductive Res (α : Type) where
  | ok (a : α)
  | error (e : Err)
  deriving DecidableEq, Repr

/-- One collaborator call of a run, with its arguments and its answer. -/
inductive Event where
  | getPR (url : String) (res : Res PullRequest)
  | isDocsOnly (pr : PullRequest) (res : Bool)
  | Sleep (nanoseconds : Nat)
  | ApplyLabel (gh : Client) (repo : Repo) (issue : Issue) (labels : List String)
      (res : Option Err)
  | commitsAreSigned (pr : PullRequest) (res : Bool)
  | AddComment (gh : Client) (repo : Repo) (number : String) (body : String)
      (res : Option Err)
  | TempDir (dir : String) (pfx : String) (res : Res String)
  | checkout (temp : String) (url : String) (number : Int) (res : Option Err)
  | checkGofmt (temp : String) (pr : PullRequest) (isGoFmtd : Bool) (files : List String)
  | RemoveAll (path : String)
  deriving DecidableEq, Repr

/-- An argument of a log call. -/
inductive LogArg where
  | err (e : Err)
  | strs (l : List String)
  | int (n : Int)
  deriving DecidableEq, Repr

/-- A log call: `log.Debugf` or `log.Infof`, its format and its arguments. -/
inductive LogEntry where
  | Debugf (format : String) (args : List LogArg)
  | Infof (format : String) (args : List LogArg)
  deriving DecidableEq, Repr

/-- Everything outside the handler that a run can change or observe. -/
structure World where
  trace : List Event
  logs : List LogEntry
  dirs : List String
  deriving DecidableEq, Repr

/-- Record a collaborator call. -/
def World.emit (w : World) (e : Event) : World :=
  { w with trace := w.trace ++ [e] }

/-- Record a log line. -/
def World.log (w : World) (l : LogEntry) : World :=
  { w with logs := w.logs ++ [l] }

/-- The directory `d` now exists (a successful `ioutil.TempDir`). -/
def World.mkdir (w : World) (d : String) : World :=
  { w with dirs := d :: w.dirs }

/-- Is `p` the directory `d` or a path below it. -/
def under (d p : String) : Bool :=
  p == d || (d.data ++ [ '/' ]).isPrefixOf p.data

/-- The call `os.RemoveAll(path)`: the path and everything below it are gone.
The call is recorded in the trace. -/
def World.RemoveAll (w : World) (path : String) : World :=
  { w with trace := w.trace ++ [Event.RemoveAll path],
           dirs := w.dirs.filter (fun p => !under path p) }

/-- The collaborators of the handler.  None of them is in src/main.go. -/
structure Env where
  /-- The decoder `github.ParsePullRequestHook`: a pure function of the body. -/
  ParsePullRequestHook : List Nat → Res PullRequestHook
  /-- The call `getPR(url)`. -/
  getPR : World → String → Res PullRequest
  /-- The call `isDocsOnly(pr)`. -/
  isDocsOnly : World → PullRequest → Bool
  /-- The call `commitsAreSigned(pr)`. -/
  commitsAreSigned : World → PullRequest → Bool
  /-- The call `gh.ApplyLabel(repo, &prIssue, labels)`: `none` is a nil error. -/
  ApplyLabel : World → Client → Repo → Issue → List String → Option Err
  /-- The call `gh.AddComment(repo, number, comment)`, its error only: the
  handler discards the returned comment. -/
  AddComment : World → Client → Repo → String → String → Option Err
  /-- The call `ioutil.TempDir(dir, prefix)`: the new directory, or an error. -/
  TempDir : World → String → String → Res String
  /-- The call `checkout(temp, url, number)`. -/
  checkout : World → String → String → Int → Option Err
  /-- The call `checkGofmt(temp, pr)`. -/
  checkGofmt : World → String → PullRequest → Bool × List String
  /-- The rune map `unicode.ToLower` behind `strings.ToLower`. -/
  toLowerRune : Char → Char
  /-- The verb `%q` of `fmt.Sprintf` on a string (`strconv.Quote`). -/
  quote : String → String

/-! ## Library functions used by the handler -/

/-- The call `strings.ToLower(s)`: every rune is mapped to lower case. -/
def ToLower (env : Env) (s : String) : String :=
  String.mk (s.data.map env.toLowerRune)

/-- The call `strings.Contains(s, substr)`. -/
def Contains (s substr : String) : Bool :=
  s.data.tails.any (fun t => substr.data.isPrefixOf t)

/-- The call `strings.Join(elems, sep)`. -/
def Join : List String → String → String
  | [], _ => ""
  | [a], _ => a
  | a :: b :: rest, sep => a ++ sep ++ Join (b :: rest) sep

/-- The call `strconv.Itoa(n)`, also the verb `%d` of `fmt.Sprintf`. -/
def Itoa (n : Int) : String := toString n

/-- The constant `time.Second`, in nanoseconds. -/
def Second : Nat := 1000000000

/-! ## The handler -/

/-- The signing-instructions comment built at lines 109-128. -/
def signComment (env : Env) (pr : PullRequest) : String :=
  let comment := "Can you please sign your commits following these rules:\n\nhttps://github.com/docker/docker/blob/master/CONTRIBUTING.md#sign-your-work\n\nThe easiest way to do this is to amend the last commit:\n\n~~~console\n"
  let comment := comment ++ ("$ git clone -b " ++ env.quote pr.Head.Ref ++ " " ++ pr.Head.Repo.SSHURL
    ++ " " ++ "somewhere" ++ "\n")
  let comment := comment ++ ("$ cd " ++ "somewhere" ++ "\n")
  let comment :=
    if pr.Commits > 1 then
      (comment ++ ("$ git rebase -i HEAD~" ++ Itoa pr.Commits ++ "\n"))
        ++ "editor opens\nchange each 'pick' to 'edit'\nsave the file and quit\n"
    else comment
  let comment := comment ++ "$ git commit --amend -s --no-edit\n"
  let comment :=
    if pr.Commits > 1 then
      comment ++ "$ git rebase --continue # and repeat the amend for each commit\n"
    else comment
  let comment := comment ++ "$ git push -f\n"
  comment ++ "~~~"

/-- The conflict notice of line 146. -/
def conflictComment : String :=
  "Looks like we would not be able to merge this PR because of conflicts. Please fix them and force push to your branch."

/-- The format-violation comment built at lines 160-161. -/
def gofmtComment (files : List String) : String :=
  ("These files are not properly gofmt'd:\n" ++ Join files "\n" ++ "\n")
    ++ "Please reformat the above files using `gofmt -s -w` and ammend to the commit the result."

/-- Lines 157-169: the gofmt check in the working copy `temp`. -/
def gofmtStage (env : Env) (gh : Client) (repo : Repo) (prHook : PullRequestHook)
    (pr : PullRequest) (temp : String) (w : World) : Option Err × World :=
  let r := env.checkGofmt w temp pr
  let w := w.emit (Event.checkGofmt temp pr r.1 r.2)
  if !r.1 then
    let comment := gofmtComment r.2
    let e := env.AddComment w gh repo (Itoa prHook.Number) comment
    let w := w.emit (Event.AddComment gh repo (Itoa prHook.Number) comment e)
    match e with
    | some err => (some err, w)
    | none => (none, w.log (LogEntry.Infof "Added comment to non-gofmt'd PR %d" [LogArg.int prHook.Number]))
  else (none, w)

/-- Lines 143-169: checkout into `temp`, the conflict notice, then the gofmt
check.  This is the part of the body that runs under `defer os.RemoveAll(temp)`. -/
def checkoutStage (env : Env) (gh : Client) (repo : Repo) (prHook : PullRequestHook)
    (pr : PullRequest) (temp : String) (w : World) : Option Err × World :=
  let e := env.checkout w temp pr.Base.Repo.HTMLURL prHook.Number
  let w := w.emit (Event.checkout temp pr.Base.Repo.HTMLURL prHook.Number e)
  match e with
  | some err =>
    if err = Err.MergeError then
      let comment := conflictComment
      let e := env.AddComment w gh repo (Itoa prHook.Number) comment
      let w := w.emit (Event.AddComment gh repo (Itoa prHook.Number) comment e)
      match e with
      | some err => (some err, w)
      | none => (none, w.log (LogEntry.Infof "Added comment to unmergable PR %d" [LogArg.int prHook.Number]))
    else (some err, w)
  | none => gofmtStage env gh repo prHook pr temp w

/-- Lines 136-170: the temp directory, the deferred `os.RemoveAll(temp)` and
what runs under it. -/
def tempStage (env : Env) (gh : Client) (repo : Repo) (prHook : PullRequestHook)
    (pr : PullRequest) (w : World) : Option Err × World :=
  let pfx := "pr-" ++ Itoa prHook.Number
  let r := env.TempDir w "" pfx
  let w := w.emit (Event.TempDir "" pfx r)
  match r with
  | Res.error err => (some err, w)
  | Res.ok temp =>
    let out := checkoutStage env gh repo prHook pr temp (w.mkdir temp)
    (out.1, out.2.RemoveAll temp)

/-- Lines 106-170: the signing check and its comment, then the rest. -/
def signingStage (env : Env) (gh : Client) (repo : Repo) (prHook : PullRequestHook)
    (pr : PullRequest) (w : World) : Option Err × World :=
  let signed := env.commitsAreSigned w pr
  let w := w.emit (Event.commitsAreSigned pr signed)
  if !signed then
    let comment := signComment env pr
    let e := env.AddComment w gh repo (Itoa prHook.Number) comment
    let w := w.emit (Event.AddComment gh repo (Itoa prHook.Number) comment e)
    match e with
    | some err => (some err, w)
    | none =>
      tempStage env gh repo prHook pr
        (w.log (LogEntry.Infof "Added comment to unsigned PR %d" [LogArg.int prHook.Number]))
  else tempStage env gh repo prHook pr w

/-- Lines 80-170: the sleep, the client, the label call, then the rest. -/
def labelStage (env : Env) (h : Handler) (prHook : PullRequestHook) (pr : PullRequest)
    (labels : List String) (w : World) : Option Err × World :=
  let w := w.emit (Event.Sleep (30 * Second))
  let gh := NewClient
  let gh := gh.WithToken h.GHToken
  let repo : Repo :=
    { Name := prHook.PullRequest.Base.Repo.Name,
      UserName := prHook.PullRequest.Base.Repo.Owner.Login }
  if labels.length > 0 then
    let prIssue : Issue := { Number := prHook.Number }
    let w := w.log (LogEntry.Debugf "Adding labels %#v to pr %d" [LogArg.strs labels, LogArg.int prHook.Number])
    let e := env.ApplyLabel w gh repo prIssue labels
    let w := w.emit (Event.ApplyLabel gh repo prIssue labels e)
    match e with
    | some err => (some err, w)
    | none =>
      signingStage env gh repo prHook pr
        (w.log (LogEntry.Infof "Added labels %#v to pr %d" [LogArg.strs labels, LogArg.int prHook.Number]))
  else signingStage env gh repo prHook pr w

/-- Lines 67-78: the label switch.  `isDocsOnly(pr)` is called only when the
first case is false. -/
def chooseLabels (env : Env) (prHook : PullRequestHook) (pr : PullRequest) (w : World) :
    List String × World :=
  let isProposal := Contains (ToLower env prHook.PullRequest.Title) "proposal"
  if isProposal then ([ "1-design-review" ], w)
  else
    let docs := env.isDocsOnly w pr
    let w := w.emit (Event.isDocsOnly pr docs)
    if docs then ([ "3-docs-review" ], w)
    else ([ "0-triage" ], w)

/-- The method `Handler.HandleMessage` (lines 47-170): the returned error
(`none` is nil) and the world after the run. -/
def HandleMessage (env : Env) (h : Handler) (m : Message) (w : World) : Option Err × World :=
  match env.ParsePullRequestHook m.Body with
  | Res.error err => (none, w.log (LogEntry.Debugf "Error parsing hook: %v" [LogArg.err err]))
  | Res.ok prHook =>
    if !prHook.IsOpened then (none, w)
    else
      let r := env.getPR w prHook.PullRequest.Url
      let w := w.emit (Event.getPR prHook.PullRequest.Url r)
      match r with
      | Res.error err => (some err, w)
      | Res.ok pr =>
        let lw := chooseLabels env prHook pr w
        labelStage env h prHook pr lw.1 lw.2

/-- The collaborator calls made by one run, in program order. -/
def runEvents (env : Env) (h : Handler) (m : Message) (w : World) : List Event :=
  (HandleMessage env h m w).2.trace.drop w.trace.length


/-! ## Shapes of a run

Each stage of the handler ends in one of a few ways.  The predicates below
list, for every stage, the events it can add to the trace together with the
error it returns; the lemmas of the next part prove that the code of the stage
always produces one of them. -/

/-- The repository value the handler builds from the hook (lines 87-90). -/
def hookRepo (prHook : PullRequestHook) : Repo :=
  { Name := prHook.PullRequest.Base.Repo.Name,
    UserName := prHook.PullRequest.Base.Repo.Owner.Login }

/-- The client the handler builds (lines 85-86). -/
def hookClient (h : Handler) : Client := NewClient.WithToken h.GHToken

/-- The possible results and event lists of lines 157-169. -/
def GofmtShape (gh : Client) (repo : Repo) (num : String) (temp : String) (pr : PullRequest)
    (r : Option Err) (evs : List Event) : Prop :=
  (∃ fs, evs = [Event.checkGofmt temp pr true fs] ∧ r = none) ∨
  (∃ fs, evs = [Event.checkGofmt temp pr false fs,
                Event.AddComment gh repo num (gofmtComment fs) r])

/-- The possible results and event lists of lines 143-169. -/
def CheckoutShape (gh : Client) (repo : Repo) (n : Int) (temp : String) (pr : PullRequest)
    (r : Option Err) (evs : List Event) : Prop :=
  (∃ e, e ≠ Err.MergeError ∧ evs = [Event.checkout temp pr.Base.Repo.HTMLURL n (some e)] ∧
      r = some e) ∨
  (evs = [Event.checkout temp pr.Base.Repo.HTMLURL n (some Err.MergeError),
          Event.AddComment gh repo (Itoa n) conflictComment r]) ∨
  (∃ evs', evs = Event.checkout temp pr.Base.Repo.HTMLURL n none :: evs' ∧
      GofmtShape gh repo (Itoa n) temp pr r evs')

/-- The possible results, event lists and directory sets of lines 136-170,
started with the directories `dirs0`. -/
def TempShape (gh : Client) (repo : Repo) (n : Int) (pr : PullRequest) (dirs0 : List String)
    (r : Option Err) (evs : List Event) (dirs1 : List String) : Prop :=
  (∃ e, evs = [Event.TempDir "" ("pr-" ++ Itoa n) (Res.error e)] ∧ r = some e ∧ dirs1 = dirs0) ∨
  (∃ d evs', evs = Event.TempDir "" ("pr-" ++ Itoa n) (Res.ok d) :: (evs' ++ [Event.RemoveAll d]) ∧
      dirs1 = (d :: dirs0).filter (fun p => !under d p) ∧
      CheckoutShape gh repo n d pr r evs')

/-- The possible results, event lists and directory sets of lines 106-170. -/
def SigningShape (env : Env) (gh : Client) (repo : Repo) (n : Int) (pr : PullRequest)
    (dirs0 : List String) (r : Option Err) (evs : List Event) (dirs1 : List String) : Prop :=
  (∃ evs', evs = Event.commitsAreSigned pr true :: evs' ∧
      TempShape gh repo n pr dirs0 r evs' dirs1) ∨
  (∃ e, evs = [Event.commitsAreSigned pr false,
               Event.AddComment gh repo (Itoa n) (signComment env pr) (some e)] ∧
      r = some e ∧ dirs1 = dirs0) ∨
  (∃ evs', evs = Event.commitsAreSigned pr false ::
                 Event.AddComment gh repo (Itoa n) (signComment env pr) none :: evs' ∧
      TempShape gh repo n pr dirs0 r evs' dirs1)

/-- The possible results, event lists and directory sets of lines 80-170, for
the label list `labels`. -/
def LabelShape (env : Env) (gh : Client) (repo : Repo) (n : Int) (pr : PullRequest)
    (labels : List String) (dirs0 : List String) (r : Option Err) (evs : List Event)
    (dirs1 : List String) : Prop :=
  (∃ e, evs = [Event.Sleep (30 * Second), Event.ApplyLabel gh repo ⟨n⟩ labels (some e)] ∧
      r = some e ∧ dirs1 = dirs0) ∨
  (∃ evs', evs = Event.Sleep (30 * Second) :: Event.ApplyLabel gh repo ⟨n⟩ labels none :: evs' ∧
      SigningShape env gh repo n pr dirs0 r evs' dirs1)

/-- The possible outcomes of the label switch (lines 67-78) run in the world
`w`: the events it adds and the label it picks. -/
def ClassShape (env : Env) (prHook : PullRequestHook) (pr : PullRequest) (w : World)
    (cls : List Event) (label : String) : Prop :=
  (Contains (ToLower env prHook.PullRequest.Title) "proposal" = true ∧ cls = [] ∧
      label = "1-design-review") ∨
  (Contains (ToLower env prHook.PullRequest.Title) "proposal" = false ∧
      env.isDocsOnly w pr = true ∧
      cls = [Event.isDocsOnly pr true] ∧ label = "3-docs-review") ∨
  (Contains (ToLower env prHook.PullRequest.Title) "proposal" = false ∧
      env.isDocsOnly w pr = false ∧
      cls = [Event.isDocsOnly pr false] ∧ label = "0-triage")

/-- The possible results, event lists and directory sets of a whole run on an
opened pull-request hook (lines 62-170) started in the world `w`. -/
def RunShape (env : Env) (h : Handler) (prHook : PullRequestHook) (w : World)
    (r : Option Err) (evs : List Event) (dirs1 : List String) : Prop :=
  (∃ e, env.getPR w prHook.PullRequest.Url = Res.error e ∧
      evs = [Event.getPR prHook.PullRequest.Url (Res.error e)] ∧ r = some e ∧ dirs1 = w.dirs) ∨
  (∃ pr cls label evs',
      env.getPR w prHook.PullRequest.Url = Res.ok pr ∧
      evs = Event.getPR prHook.PullRequest.Url (Res.ok pr) :: (cls ++ evs') ∧
      ClassShape env prHook pr (w.emit (Event.getPR prHook.PullRequest.Url (Res.ok pr))) cls label ∧
      LabelShape env (hookClient h) (hookRepo prHook) prHook.Number pr [label] w.dirs r evs' dirs1)

/-! ## Reading a trace -/

/-- Is the event an `ApplyLabel` call. -/
def Event.isApplyLabel : Event → Bool
  | Event.ApplyLabel _ _ _ _ _ => true
  | _ => false

/-- Is the event an `AddComment` call. -/
def Event.isAddComment : Event → Bool
  | Event.AddComment _ _ _ _ _ => true
  | _ => false

/-- Is the event a `checkout` call. -/
def Event.isCheckout : Event → Bool
  | Event.checkout _ _ _ _ => true
  | _ => false

/-- Is the event a `checkGofmt` call. -/
def Event.isCheckGofmt : Event → Bool
  | Event.checkGofmt _ _ _ _ => true
  | _ => false

/-- Is the event the deferred `os.RemoveAll`. -/
def Event.isCleanup : Event → Bool
  | Event.RemoveAll _ => true
  | _ => false

/-- A format-violation comment: an `AddComment` call whose body is the text of
lines 160-161 for some list of files. -/
def Event.isGofmtComment (e : Event) : Prop :=
  ∃ gh repo num fs res, e = Event.AddComment gh repo num (gofmtComment fs) res

/-- The error of a failed GitHub call (`getPR`, `ApplyLabel`, `AddComment`). -/
def Event.githubError : Event → Option Err
  | Event.getPR _ (Res.error e) => some e
  | Event.ApplyLabel _ _ _ _ (some e) => some e
  | Event.AddComment _ _ _ _ (some e) => some e
  | _ => none

/-- The error of a failed step: a failed GitHub call, a failed
`ioutil.TempDir`, or a `checkout` that failed with an error other than
`MergeError`. -/
def Event.failure : Event → Option Err
  | Event.TempDir _ _ (Res.error e) => some e
  | Event.checkout _ _ _ (some e) => if e = Err.MergeError then none else some e
  | ev => ev.githubError

/-! ## Sample inputs -/

/-- A hook with the given action and title, for pull request 7 of docker/docker. -/
def sampleHook (action title : String) : PullRequestHook :=
  { Action := action, Number := 7,
    PullRequest :=
      { Url := "https://api.github.com/repos/docker/docker/pulls/7", Title := title,
        Base := { Repo := { Name := "docker", Owner := { Login := "docker" } } } } }

/-- A fetched pull request with two commits. -/
def samplePR : PullRequest :=
  { Head := { Ref := "fix-typo", Repo := { SSHURL := "git@github.com:alice/docker.git" } },
    Base := { Repo := { HTMLURL := "https://github.com/docker/docker" } },
    Commits := 2 }

/-- An environment in which `getPR`, `ApplyLabel` and `TempDir` succeed; the
decoder result, the answers of `isDocsOnly`, `commitsAreSigned`, `checkout` and
`checkGofmt`, and the error of `AddComment` for each body are given. -/
def sampleEnv (hook : Res PullRequestHook) (docs signed : Bool) (co : Option Err)
    (fmtd : Bool × List String) (commentErr : String → Option Err) : Env :=
  { ParsePullRequestHook := fun _ => hook,
    getPR := fun _ _ => Res.ok samplePR,
    isDocsOnly := fun _ _ => docs,
    commitsAreSigned := fun _ _ => signed,
    ApplyLabel := fun _ _ _ _ _ => none,
    AddComment := fun _ _ _ _ body => commentErr body,
    TempDir := fun _ _ pfx => Res.ok ("/tmp/" ++ pfx ++ "123456"),
    checkout := fun _ _ _ _ => co,
    checkGofmt := fun _ _ _ => fmtd,
    toLowerRune := Char.toLower,
    quote := fun s => "\"" ++ s ++ "\"" }

/-- The handler value of the samples. -/
def sampleHandler : Handler := { GHToken := "token" }

/-- The message of the samples: the decoder of `sampleEnv` ignores the body. -/
def sampleMessage : Message := { Body := [] }

/-- A world with no history and one directory that is not the handler's. -/
def sampleWorld : World := { trace := [], logs := [], dirs := [ "/home" ] }

/-- The reading of a run that C7 asks for: scanning the events in order, the
first failed step ends the run, up to the deferred cleanup, and its error is
the handler's result; a run with no failed step returns nil. -/
def stopsAtFailure (r : Option Err) : List Event → Prop
  | [] => r = none
  | ev :: rest =>
    match ev.failure with
    | some e => r = some e ∧ ∀ x ∈ rest, x.isCleanup = true
    | none => stopsAtFailure r rest

/-- The lines of a text: the pieces between its newline characters. -/
def splitLines : List Char → List (List Char)
  | [] => [[]]
  | c :: cs =>
    if c = '\n' then [] :: splitLines cs
    else
      match splitLines cs with
      | [] => [[c]]
      | l :: ls => (c :: l) :: ls

/-! ## The worlds of a run

The oracles answer in the world of the call.  The definitions below name, for
a run whose earlier steps went well, the world in which each later collaborator
is called, and the events such a run has recorded by then. -/

/-- The world after `getPR` returned `pr` (line 62): the label switch runs in it. -/
def worldGot (prHook : PullRequestHook) (pr : PullRequest) (w : World) : World :=
  w.emit (Event.getPR prHook.PullRequest.Url (Res.ok pr))

/-- The label list the switch of lines 67-78 picks in a run whose `getPR`
returned `pr`. -/
def runLabels (env : Env) (prHook : PullRequestHook) (pr : PullRequest) (w : World) :
    List String :=
  (chooseLabels env prHook pr (worldGot prHook pr w)).1

/-- The events of the label switch: none for a proposal, else the
`isDocsOnly(pr)` call with the oracle's answer. -/
def classEvents (env : Env) (prHook : PullRequestHook) (pr : PullRequest) (w : World) :
    List Event :=
  if Contains (ToLower env prHook.PullRequest.Title) "proposal" = true then []
  else [Event.isDocsOnly pr (env.isDocsOnly (worldGot prHook pr w) pr)]

/-- The world in which `gh.ApplyLabel` is called (line 99). -/
def worldApplyLabel (env : Env) (prHook : PullRequestHook) (pr : PullRequest) (w : World) :
    World :=
  ((chooseLabels env prHook pr (worldGot prHook pr w)).2.emit (Event.Sleep (30 * Second))).log
    (LogEntry.Debugf "Adding labels %#v to pr %d"
      [LogArg.strs (runLabels env prHook pr w), LogArg.int prHook.Number])

/-- The world in which `commitsAreSigned(pr)` is called (line 107), after a
successful `ApplyLabel`. -/
def worldSigning (env : Env) (h : Handler) (prHook : PullRequestHook) (pr : PullRequest)
    (w : World) : World :=
  ((worldApplyLabel env prHook pr w).emit
    (Event.ApplyLabel (hookClient h) (hookRepo prHook) ⟨prHook.Number⟩
      (runLabels env prHook pr w) none)).log
    (LogEntry.Infof "Added labels %#v to pr %d"
      [LogArg.strs (runLabels env prHook pr w), LogArg.int prHook.Number])

/-- The world in which the signing-instructions comment is posted (line 130),
after `commitsAreSigned(pr)` answered false. -/
def worldSignComment (env : Env) (h : Handler) (prHook : PullRequestHook) (pr : PullRequest)
    (w : World) : World :=
  (worldSigning env h prHook pr w).emit (Event.commitsAreSigned pr false)

/-- The world in which `ioutil.TempDir` is called (line 137), after
`commitsAreSigned(pr)` answered `signed` and, for unsigned commits, the
signing-instructions comment was posted. -/
def worldTempDir (env : Env) (h : Handler) (prHook : PullRequestHook) (pr : PullRequest)
    (w : World) (signed : Bool) : World :=
  if signed = true then (worldSigning env h prHook pr w).emit (Event.commitsAreSigned pr true)
  else
    ((worldSignComment env h prHook pr w).emit
      (Event.AddComment (hookClient h) (hookRepo prHook) (Itoa prHook.Number)
        (signComment env pr) none)).log
      (LogEntry.Infof "Added comment to unsigned PR %d" [LogArg.int prHook.Number])

/-- The world in which `checkout` is called (line 143), after `ioutil.TempDir`
made the directory `d`. -/
def worldCheckout (env : Env) (h : Handler) (prHook : PullRequestHook) (pr : PullRequest)
    (w : World) (signed : Bool) (d : String) : World :=
  ((worldTempDir env h prHook pr w signed).emit
    (Event.TempDir "" ("pr-" ++ Itoa prHook.Number) (Res.ok d))).mkdir d

/-- The world after `checkout` returned `res`: in it the conflict notice is
posted (line 148) when `res` is `MergeError`, and `checkGofmt` is called
(line 158) when `res` is nil. -/
def worldAfterCheckout (env : Env) (h : Handler) (prHook : PullRequestHook) (pr : PullRequest)
    (w : World) (signed : Bool) (d : String) (res : Option Err) : World :=
  (worldCheckout env h prHook pr w signed d).emit
    (Event.checkout d pr.Base.Repo.HTMLURL prHook.Number res)

/-- The world in which the format-violation comment is posted (line 163),
after `checkGofmt` reported the files `fs`. -/
def worldGofmtComment (env : Env) (h : Handler) (prHook : PullRequestHook) (pr : PullRequest)
    (w : World) (signed : Bool) (d : String) (fs : List String) : World :=
  (worldAfterCheckout env h prHook pr w signed d none).emit (Event.checkGofmt d pr false fs)

/-- The calls of a run up to, not including, `gh.ApplyLabel`. -/
def eventsBeforeApplyLabel (env : Env) (prHook : PullRequestHook) (pr : PullRequest)
    (w : World) : List Event :=
  Event.getPR prHook.PullRequest.Url (Res.ok pr) ::
    (classEvents env prHook pr w ++ [Event.Sleep (30 * Second)])

/-- The calls of a run up to, not including, `commitsAreSigned(pr)`. -/
def eventsBeforeSigning (env : Env) (h : Handler) (prHook : PullRequestHook)
    (pr : PullRequest) (w : World) : List Event :=
  eventsBeforeApplyLabel env prHook pr w ++
    [Event.ApplyLabel (hookClient h) (hookRepo prHook) ⟨prHook.Number⟩
      (runLabels env prHook pr w) none]

/-- The calls of a run up to, not including, `ioutil.TempDir`: the signing
check and, for unsigned commits, the signing-instructions comment. -/
def eventsBeforeTempDir (env : Env) (h : Handler) (prHook : PullRequestHook)
    (pr : PullRequest) (w : World) (signed : Bool) : List Event :=
  eventsBeforeSigning env h prHook pr w ++
    (Event.commitsAreSigned pr signed ::
      (if signed = true then []
        else [Event.AddComment (hookClient h) (hookRepo prHook) (Itoa prHook.Number)
                (signComment env pr) none]))

/-! ## Every stage produces one of its shapes -/

theorem gofmtStage_shape (env : Env) (gh : Client) (repo : Repo) (prHook : PullRequestHook)
    (pr : PullRequest) (temp : String) (w : World) :
    ∃ evs, (gofmtStage env gh repo prHook pr temp w).2.trace = w.trace ++ evs ∧
      (gofmtStage env gh repo prHook pr temp w).2.dirs = w.dirs ∧
      GofmtShape gh repo (Itoa prHook.Number) temp pr
        (gofmtStage env gh repo prHook pr temp w).1 evs := by
  unfold gofmtStage GofmtShape
  cases hc : env.checkGofmt w temp pr with
  | mk ok fs =>
    cases ok with
    | true => exact ⟨_, rfl, rfl, Or.inl ⟨fs, rfl, rfl⟩⟩
    | false =>
      simp only [Bool.not_false, if_true, World.emit, World.log]
      split
      · next err he =>
        refine ⟨_, (List.append_assoc _ _ _), rfl, Or.inr ⟨fs, ?_⟩⟩
        simp [he]
      · next he =>
        refine ⟨_, (List.append_assoc _ _ _), rfl, Or.inr ⟨fs, ?_⟩⟩
        simp [he]

theorem checkoutStage_shape (env : Env) (gh : Client) (repo : Repo) (prHook : PullRequestHook)
    (pr : PullRequest) (temp : String) (w : World) :
    ∃ evs, (checkoutStage env gh repo prHook pr temp w).2.trace = w.trace ++ evs ∧
      (checkoutStage env gh repo prHook pr temp w).2.dirs = w.dirs ∧
      CheckoutShape gh repo prHook.Number temp pr
        (checkoutStage env gh repo prHook pr temp w).1 evs := by
  unfold checkoutStage CheckoutShape
  cases hc : env.checkout w temp pr.Base.Repo.HTMLURL prHook.Number with
  | some err =>
    by_cases hm : err = Err.MergeError
    · subst hm
      simp only [if_true, World.emit, World.log]
      split
      · next err he =>
        refine ⟨_, (List.append_assoc _ _ _), rfl, Or.inr (Or.inl ?_)⟩
        simp [he]
      · next he =>
        refine ⟨_, (List.append_assoc _ _ _), rfl, Or.inr (Or.inl ?_)⟩
        simp [he]
    · simp only [hm, if_false]
      exact ⟨_, rfl, rfl, Or.inl ⟨err, hm, rfl, rfl⟩⟩
  | none =>
    simp only []
    obtain ⟨evs, ht, hd, hs⟩ := gofmtStage_shape env gh repo prHook pr temp
      (w.emit (Event.checkout temp pr.Base.Repo.HTMLURL prHook.Number none))
    refine ⟨Event.checkout temp pr.Base.Repo.HTMLURL prHook.Number none :: evs, ?_, ?_,
      Or.inr (Or.inr ⟨evs, rfl, hs⟩)⟩
    · rw [ht]; simp [World.emit]
    · rw [hd]; rfl

theorem tempStage_shape (env : Env) (gh : Client) (repo : Repo) (prHook : PullRequestHook)
    (pr : PullRequest) (w : World) :
    ∃ evs, (tempStage env gh repo prHook pr w).2.trace = w.trace ++ evs ∧
      TempShape gh repo prHook.Number pr w.dirs
        (tempStage env gh repo prHook pr w).1 evs (tempStage env gh repo prHook pr w).2.dirs := by
  unfold tempStage TempShape
  dsimp only
  cases hc : env.TempDir w "" ("pr-" ++ Itoa prHook.Number) with
  | error err => exact ⟨_, rfl, Or.inl ⟨err, rfl, rfl, rfl⟩⟩
  | ok d =>
    simp only []
    obtain ⟨evs, ht, hd, hs⟩ := checkoutStage_shape env gh repo prHook pr d
      ((w.emit (Event.TempDir "" ("pr-" ++ Itoa prHook.Number) (Res.ok d))).mkdir d)
    refine ⟨Event.TempDir "" ("pr-" ++ Itoa prHook.Number) (Res.ok d) ::
      (evs ++ [Event.RemoveAll d]), ?_, Or.inr ⟨d, evs, rfl, ?_, hs⟩⟩
    · simp only [World.RemoveAll]
      rw [ht]
      simp [World.emit, World.mkdir]
    · simp only [World.RemoveAll]
      rw [hd]
      rfl

theorem signingStage_shape (env : Env) (gh : Client) (repo : Repo) (prHook : PullRequestHook)
    (pr : PullRequest) (w : World) :
    ∃ evs, (signingStage env gh repo prHook pr w).2.trace = w.trace ++ evs ∧
      SigningShape env gh repo prHook.Number pr w.dirs
        (signingStage env gh repo prHook pr w).1 evs
        (signingStage env gh repo prHook pr w).2.dirs := by
  unfold signingStage SigningShape
  dsimp only
  cases hc : env.commitsAreSigned w pr with
  | true =>
    simp only [Bool.not_true, Bool.false_eq_true, if_false]
    obtain ⟨evs, ht, hs⟩ := tempStage_shape env gh repo prHook pr
      (w.emit (Event.commitsAreSigned pr true))
    refine ⟨Event.commitsAreSigned pr true :: evs, ?_, Or.inl ⟨evs, rfl, hs⟩⟩
    rw [ht]; simp [World.emit]
  | false =>
    simp only [Bool.not_false, if_true]
    cases he : env.AddComment (w.emit (Event.commitsAreSigned pr false)) gh repo
        (Itoa prHook.Number) (signComment env pr) with
    | some err =>
      refine ⟨_, ?_, Or.inr (Or.inl ⟨err, rfl, rfl, rfl⟩)⟩
      simp [World.emit]
    | none =>
      simp only []
      obtain ⟨evs, ht, hs⟩ := tempStage_shape env gh repo prHook pr
        (((w.emit (Event.commitsAreSigned pr false)).emit
          (Event.AddComment gh repo (Itoa prHook.Number) (signComment env pr) none)).log
          (LogEntry.Infof "Added comment to unsigned PR %d" [LogArg.int prHook.Number]))
      refine ⟨Event.commitsAreSigned pr false ::
        Event.AddComment gh repo (Itoa prHook.Number) (signComment env pr) none :: evs, ?_,
        Or.inr (Or.inr ⟨evs, rfl, hs⟩)⟩
      rw [ht]; simp [World.emit, World.log]

theorem labelStage_shape (env : Env) (h : Handler) (prHook : PullRequestHook)
    (pr : PullRequest) (label : String) (w : World) :
    ∃ evs, (labelStage env h prHook pr [label] w).2.trace = w.trace ++ evs ∧
      LabelShape env (hookClient h) (hookRepo prHook) prHook.Number pr [label] w.dirs
        (labelStage env h prHook pr [label] w).1 evs
        (labelStage env h prHook pr [label] w).2.dirs := by
  unfold labelStage LabelShape
  dsimp only
  simp only [List.length_singleton, gt_iff_lt, Nat.lt_one_iff, Nat.zero_lt_one, if_true]
  cases he : env.ApplyLabel ((w.emit (Event.Sleep (30 * Second))).log
      (LogEntry.Debugf "Adding labels %#v to pr %d" [LogArg.strs [label], LogArg.int prHook.Number]))
      (NewClient.WithToken h.GHToken)
      { Name := prHook.PullRequest.Base.Repo.Name,
        UserName := prHook.PullRequest.Base.Repo.Owner.Login }
      { Number := prHook.Number } [label] with
  | some err =>
    refine ⟨_, ?_, Or.inl ⟨err, rfl, rfl, rfl⟩⟩
    simp [World.emit, World.log, hookClient, hookRepo]
  | none =>
    simp only []
    obtain ⟨evs, ht, hs⟩ := signingStage_shape env (hookClient h) (hookRepo prHook) prHook pr
      ((((w.emit (Event.Sleep (30 * Second))).log
        (LogEntry.Debugf "Adding labels %#v to pr %d" [LogArg.strs [label], LogArg.int prHook.Number])).emit
        (Event.ApplyLabel (hookClient h) (hookRepo prHook) ⟨prHook.Number⟩ [label] none)).log
        (LogEntry.Infof "Added labels %#v to pr %d" [LogArg.strs [label], LogArg.int prHook.Number]))
    refine ⟨Event.Sleep (30 * Second) ::
      Event.ApplyLabel (hookClient h) (hookRepo prHook) ⟨prHook.Number⟩ [label] none :: evs, ?_,
      Or.inr ⟨evs, rfl, hs⟩⟩
    simp only [hookClient, hookRepo] at ht ⊢
    rw [ht]; simp [World.emit, World.log]

theorem chooseLabels_shape (env : Env) (prHook : PullRequestHook) (pr : PullRequest) (w : World) :
    ∃ cls label, (chooseLabels env prHook pr w).1 = [label] ∧
      (chooseLabels env prHook pr w).2.trace = w.trace ++ cls ∧
      (chooseLabels env prHook pr w).2.dirs = w.dirs ∧
      (chooseLabels env prHook pr w).2.logs = w.logs ∧
      ClassShape env prHook pr w cls label := by
  unfold chooseLabels ClassShape
  dsimp only
  cases hp : Contains (ToLower env prHook.PullRequest.Title) "proposal" with
  | true => exact ⟨[], _, rfl, by simp, rfl, rfl, Or.inl ⟨rfl, rfl, rfl⟩⟩
  | false =>
    cases hd : env.isDocsOnly w pr with
    | true =>
      exact ⟨[Event.isDocsOnly pr true], _, rfl, rfl, rfl, rfl, Or.inr (Or.inl ⟨rfl, rfl, rfl, rfl⟩)⟩
    | false =>
      exact ⟨[Event.isDocsOnly pr false], _, rfl, rfl, rfl, rfl,
        Or.inr (Or.inr ⟨rfl, rfl, rfl, rfl⟩)⟩

theorem HandleMessage_shape (env : Env) (h : Handler) (m : Message) (w : World)
    (prHook : PullRequestHook)
    (hparse : env.ParsePullRequestHook m.Body = Res.ok prHook)
    (hopen : prHook.IsOpened = true) :
    ∃ evs, (HandleMessage env h m w).2.trace = w.trace ++ evs ∧
      RunShape env h prHook w (HandleMessage env h m w).1 evs (HandleMessage env h m w).2.dirs := by
  unfold HandleMessage RunShape
  simp only [hparse, hopen, Bool.not_true, Bool.false_eq_true, if_false]
  cases hg : env.getPR w prHook.PullRequest.Url with
  | error e => exact ⟨_, rfl, Or.inl ⟨e, rfl, rfl, rfl, rfl⟩⟩
  | ok pr =>
    dsimp only
    obtain ⟨cls, label, hl, hct, hcd, -, hcs⟩ := chooseLabels_shape env prHook pr
      (w.emit (Event.getPR prHook.PullRequest.Url (Res.ok pr)))
    obtain ⟨evs, ht, hs⟩ := labelStage_shape env h prHook pr label
      (chooseLabels env prHook pr (w.emit (Event.getPR prHook.PullRequest.Url (Res.ok pr)))).2
    rw [hl]
    refine ⟨Event.getPR prHook.PullRequest.Url (Res.ok pr) :: (cls ++ evs), ?_,
      Or.inr ⟨pr, cls, label, evs, rfl, rfl, hcs, ?_⟩⟩
    · rw [ht, hct]; simp [World.emit]
    · rw [hcd] at hs; exact hs

theorem runEvents_eq (env : Env) (h : Handler) (m : Message) (w : World) (evs : List Event)
    (ht : (HandleMessage env h m w).2.trace = w.trace ++ evs) :
    runEvents env h m w = evs := by
  unfold runEvents
  rw [ht]
  exact List.drop_left _ _

/-! ## The three comments are different texts -/

theorem head_append (a b : String) (c : Char) (h : a.data.head? = some c) :
    (a ++ b).data.head? = some c := by
  rw [String.data_append]
  cases hd : a.data with
  | nil => simp [hd] at h
  | cons x xs => simpa [hd] using h

theorem gofmtComment_head (fs : List String) : (gofmtComment fs).data.head? = some 'T' := by
  unfold gofmtComment
  exact head_append _ _ _ (head_append _ _ _ (head_append _ _ _ rfl))

theorem signComment_head (env : Env) (pr : PullRequest) :
    (signComment env pr).data.head? = some 'C' := by
  unfold signComment
  dsimp only
  split <;> repeat (first | rfl | apply head_append)

theorem signComment_ne_gofmtComment (env : Env) (pr : PullRequest) (fs : List String) :
    signComment env pr ≠ gofmtComment fs := by
  intro h
  have h2 := congrArg (fun s => s.data.head?) h
  simp only [signComment_head, gofmtComment_head] at h2
  exact absurd h2 (by decide)

theorem conflictComment_ne_gofmtComment (fs : List String) :
    conflictComment ≠ gofmtComment fs := by
  intro h
  have h2 := congrArg (fun s => s.data.head?) h
  simp only [gofmtComment_head] at h2
  exact absurd h2 (by decide)

theorem conflictComment_ne_signComment (env : Env) (pr : PullRequest) :
    conflictComment ≠ signComment env pr := by
  intro h
  have h2 := congrArg (fun s => s.data.head?) h
  simp only [signComment_head] at h2
  exact absurd h2 (by decide)

/-! ## The label call in a run -/

theorem LabelShape_applyLabel {env : Env} {gh : Client} {repo : Repo} {n : Int}
    {pr : PullRequest} {labels : List String} {dirs0 dirs1 : List String} {r : Option Err}
    {evs : List Event} (hl : LabelShape env gh repo n pr labels dirs0 r evs dirs1) :
    ∃ res, evs.filter Event.isApplyLabel = [Event.ApplyLabel gh repo ⟨n⟩ labels res] := by
  rcases hl with ⟨e, rfl, rfl, rfl⟩ | ⟨evs2, rfl, ⟨evs3, rfl, hT⟩ | ⟨e, rfl, rfl, rfl⟩ |
    ⟨evs3, rfl, hT⟩⟩
  · exact ⟨some e, by simp [Event.isApplyLabel]⟩
  · rcases hT with ⟨e, rfl, rfl, rfl⟩ | ⟨d, evs4, rfl, rfl, ⟨e, hne, rfl, rfl⟩ | rfl |
      ⟨evs5, rfl, ⟨fs, rfl, rfl⟩ | ⟨fs, rfl⟩⟩⟩ <;>
    exact ⟨none, by simp [Event.isApplyLabel]⟩
  · exact ⟨none, by simp [Event.isApplyLabel]⟩
  · rcases hT with ⟨e, rfl, rfl, rfl⟩ | ⟨d, evs4, rfl, rfl, ⟨e, hne, rfl, rfl⟩ | rfl |
      ⟨evs5, rfl, ⟨fs, rfl, rfl⟩ | ⟨fs, rfl⟩⟩⟩ <;>
    exact ⟨none, by simp [Event.isApplyLabel]⟩

theorem ClassShape_applyLabel {env : Env} {prHook : PullRequestHook} {pr : PullRequest}
    {w : World} {cls : List Event} {label : String}
    (hc : ClassShape env prHook pr w cls label) :
    cls.filter Event.isApplyLabel = [] := by
  rcases hc with ⟨-, rfl, -⟩ | ⟨-, -, rfl, -⟩ | ⟨-, -, rfl, -⟩ <;> simp [Event.isApplyLabel]

theorem ClassShape_label {env : Env} {prHook : PullRequestHook} {pr : PullRequest}
    {w : World} {cls : List Event} {label : String}
    (hc : ClassShape env prHook pr w cls label) :
    label ∈ [ "1-design-review", "3-docs-review", "0-triage" ] := by
  rcases hc with ⟨-, -, rfl⟩ | ⟨-, -, -, rfl⟩ | ⟨-, -, -, rfl⟩ <;> simp

theorem RunShape_applyLabel {env : Env} {h : Handler} {prHook : PullRequestHook} {w : World}
    {r : Option Err} {evs : List Event} {dirs1 : List String} {pr : PullRequest}
    (hs : RunShape env h prHook w r evs dirs1)
    (hpr : env.getPR w prHook.PullRequest.Url = Res.ok pr) :
    ∃ cls label res, ClassShape env prHook pr
        (w.emit (Event.getPR prHook.PullRequest.Url (Res.ok pr))) cls label ∧
      evs.filter Event.isApplyLabel =
        [Event.ApplyLabel (hookClient h) (hookRepo prHook) ⟨prHook.Number⟩ [label] res] := by
  rcases hs with ⟨e, hg, rfl, rfl, rfl⟩ | ⟨pr1, cls, label, evs1, hg, rfl, hc, hl⟩
  · rw [hpr] at hg; exact absurd hg (by simp)
  · rw [hpr] at hg
    cases hg
    obtain ⟨res, hres⟩ := LabelShape_applyLabel hl
    refine ⟨cls, label, res, hc, ?_⟩
    simp [List.filter_cons, Event.isApplyLabel, ClassShape_applyLabel hc, hres]

/-! ## Only an opened hook starts a run -/

theorem run_started {env : Env} {h : Handler} {m : Message} {w : World} {ev : Event}
    (hev : ev ∈ runEvents env h m w) :
    ∃ prHook, env.ParsePullRequestHook m.Body = Res.ok prHook ∧ prHook.IsOpened = true := by
  cases hp : env.ParsePullRequestHook m.Body with
  | error e =>
    simp [runEvents, HandleMessage, hp, World.log] at hev
  | ok prHook =>
    cases ho : prHook.IsOpened with
    | true => exact ⟨prHook, rfl, ho⟩
    | false => simp [runEvents, HandleMessage, hp, ho] at hev

/-! ## A merge conflict -/

theorem LabelShape_conflict {env : Env} {gh : Client} {repo : Repo} {n : Int}
    {pr : PullRequest} {labels : List String} {dirs0 dirs1 : List String} {r : Option Err}
    {evs : List Event} {temp url : String} {k : Int}
    (hl : LabelShape env gh repo n pr labels dirs0 r evs dirs1)
    (hco : Event.checkout temp url k (some Err.MergeError) ∈ evs) :
    ∃ signed, Event.commitsAreSigned pr signed ∈ evs ∧
      evs.filter Event.isAddComment =
        (if signed = true then []
          else [Event.AddComment gh repo (Itoa n) (signComment env pr) none]) ++
        [Event.AddComment gh repo (Itoa n) conflictComment r] := by
  rcases hl with ⟨e, rfl, rfl, rfl⟩ | ⟨evs2, rfl, ⟨evs3, rfl, hT⟩ | ⟨e, rfl, rfl, rfl⟩ |
    ⟨evs3, rfl, hT⟩⟩
  · simp at hco
  · rcases hT with ⟨e, rfl, rfl, rfl⟩ | ⟨d, evs4, rfl, rfl, ⟨e, hne, rfl, rfl⟩ | rfl |
      ⟨evs5, rfl, ⟨fs, rfl, rfl⟩ | ⟨fs, rfl⟩⟩⟩
    · simp at hco
    · simp at hco; exact absurd hco.2.2.2.symm hne
    · exact ⟨true, by simp, by simp [Event.isAddComment]⟩
    · simp at hco
    · simp at hco
  · simp at hco
  · rcases hT with ⟨e, rfl, rfl, rfl⟩ | ⟨d, evs4, rfl, rfl, ⟨e, hne, rfl, rfl⟩ | rfl |
      ⟨evs5, rfl, ⟨fs, rfl, rfl⟩ | ⟨fs, rfl⟩⟩⟩
    · simp at hco
    · simp at hco; exact absurd hco.2.2.2.symm hne
    · exact ⟨false, by simp, by simp [Event.isAddComment]⟩
    · simp at hco
    · simp at hco

/-! ## Facts about single events -/

theorem githubError_addComment (gh : Client) (repo : Repo) (num body : String)
    (res : Option Err) : (Event.AddComment gh repo num body res).githubError = res := by
  cases res <;> rfl

theorem isGofmtComment_addComment (gh : Client) (repo : Repo) (num body : String)
    (res : Option Err) :
    (Event.AddComment gh repo num body res).isGofmtComment ↔ ∃ fs, body = gofmtComment fs := by
  constructor
  · rintro ⟨gh1, repo1, num1, fs, res1, heq⟩
    cases heq
    exact ⟨fs, rfl⟩
  · rintro ⟨fs, rfl⟩
    exact ⟨gh, repo, num, fs, res, rfl⟩

theorem not_isGofmtComment_sign (env : Env) (pr : PullRequest) (gh : Client) (repo : Repo)
    (num : String) (res : Option Err) :
    ¬ (Event.AddComment gh repo num (signComment env pr) res).isGofmtComment := by
  rw [isGofmtComment_addComment]
  rintro ⟨fs, hfs⟩
  exact signComment_ne_gofmtComment env pr fs hfs

theorem not_isGofmtComment_conflict (gh : Client) (repo : Repo) (num : String)
    (res : Option Err) :
    ¬ (Event.AddComment gh repo num conflictComment res).isGofmtComment := by
  rw [isGofmtComment_addComment]
  rintro ⟨fs, hfs⟩
  exact conflictComment_ne_gofmtComment fs hfs

theorem not_isGofmtComment_of_not_addComment (e : Event) (he : e.isAddComment = false) :
    ¬ e.isGofmtComment := by
  rintro ⟨gh, repo, num, fs, res, rfl⟩
  simp [Event.isAddComment] at he

theorem ClassShape_events {env : Env} {prHook : PullRequestHook} {pr : PullRequest}
    {w : World} {cls : List Event} {label : String}
    (hc : ClassShape env prHook pr w cls label) :
    cls = [] ∨ ∃ b, cls = [Event.isDocsOnly pr b] := by
  rcases hc with ⟨-, rfl, -⟩ | ⟨-, -, rfl, -⟩ | ⟨-, -, rfl, -⟩
  · exact Or.inl rfl
  · exact Or.inr ⟨true, rfl⟩
  · exact Or.inr ⟨false, rfl⟩

/-! ## A merge conflict when the GitHub calls succeed -/

theorem LabelShape_conflict_ok {env : Env} {gh : Client} {repo : Repo} {n : Int}
    {pr : PullRequest} {labels : List String} {dirs0 dirs1 : List String} {r : Option Err}
    {evs : List Event} {temp url : String} {k : Int}
    (hl : LabelShape env gh repo n pr labels dirs0 r evs dirs1)
    (hco : Event.checkout temp url k (some Err.MergeError) ∈ evs)
    (hgh : ∀ e ∈ evs, e.githubError = none) :
    r = none ∧
    Event.ApplyLabel gh repo ⟨n⟩ labels none ∈ evs.takeWhile (fun e => !e.isCheckout) ∧
    evs.dropWhile (fun e => !e.isCheckout) =
      [Event.checkout temp url k (some Err.MergeError),
       Event.AddComment gh repo (Itoa n) conflictComment none,
       Event.RemoveAll temp] ∧
    (∀ e ∈ evs, e.isCheckGofmt = false) ∧
    (∀ e ∈ evs, ¬ e.isGofmtComment) := by
  rcases hl with ⟨e, rfl, rfl, rfl⟩ | ⟨evs2, rfl, ⟨evs3, rfl, hT⟩ | ⟨e, rfl, rfl, rfl⟩ |
    ⟨evs3, rfl, hT⟩⟩
  · simp at hco
  · rcases hT with ⟨e, rfl, rfl, rfl⟩ | ⟨d, evs4, rfl, rfl, ⟨e, hne, rfl, rfl⟩ | rfl |
      ⟨evs5, rfl, ⟨fs, rfl, rfl⟩ | ⟨fs, rfl⟩⟩⟩
    · simp at hco
    · simp at hco; exact absurd hco.2.2.2.symm hne
    · simp at hco
      obtain ⟨rfl, rfl, rfl⟩ := hco
      have hr : r = none := by
        have := hgh (Event.AddComment gh repo (Itoa k) conflictComment r) (by simp)
        rwa [githubError_addComment] at this
      subst hr
      refine ⟨rfl, by simp [Event.isCheckout], by simp [Event.isCheckout],
        by simp [Event.isCheckGofmt], ?_⟩
      intro e he
      simp at he
      rcases he with rfl | rfl | rfl | rfl | rfl | rfl | rfl
      all_goals first
        | exact not_isGofmtComment_conflict _ _ _ _
        | exact not_isGofmtComment_of_not_addComment _ rfl
    · simp at hco
    · simp at hco
  · simp at hco
  · rcases hT with ⟨e, rfl, rfl, rfl⟩ | ⟨d, evs4, rfl, rfl, ⟨e, hne, rfl, rfl⟩ | rfl |
      ⟨evs5, rfl, ⟨fs, rfl, rfl⟩ | ⟨fs, rfl⟩⟩⟩
    · simp at hco
    · simp at hco; exact absurd hco.2.2.2.symm hne
    · simp at hco
      obtain ⟨rfl, rfl, rfl⟩ := hco
      have hr : r = none := by
        have := hgh (Event.AddComment gh repo (Itoa k) conflictComment r) (by simp)
        rwa [githubError_addComment] at this
      subst hr
      refine ⟨rfl, by simp [Event.isCheckout], by simp [Event.isCheckout],
        by simp [Event.isCheckGofmt], ?_⟩
      intro e he
      simp at he
      rcases he with rfl | rfl | rfl | rfl | rfl | rfl | rfl | rfl
      all_goals first
        | exact not_isGofmtComment_conflict _ _ _ _
        | exact not_isGofmtComment_sign _ _ _ _ _ _
        | exact not_isGofmtComment_of_not_addComment _ rfl
    · simp at hco
    · simp at hco

/-! ## The first failed step ends the run -/

theorem failure_of_isCleanup {x : Event} (hx : x.isCleanup = true) : x.failure = none := by
  cases x <;> simp [Event.isCleanup] at hx
  rfl

theorem stopsAtFailure_split {r : Option Err} {evs : List Event} (hs : stopsAtFailure r evs) :
    ∀ (pre : List Event) (ev : Event) (post : List Event) (e : Err),
      evs = pre ++ ev :: post → ev.failure = some e →
      r = some e ∧ ∀ x ∈ post, x.isCleanup = true := by
  induction evs with
  | nil =>
    intro pre ev post e heq
    simp at heq
  | cons a rest ih =>
    intro pre ev post e heq hf
    cases pre with
    | nil =>
      simp only [List.nil_append, List.cons.injEq] at heq
      obtain ⟨rfl, rfl⟩ := heq
      simp only [stopsAtFailure, hf] at hs
      exact hs
    | cons b pre1 =>
      simp only [List.cons_append, List.cons.injEq] at heq
      obtain ⟨rfl, rfl⟩ := heq
      cases ha : a.failure with
      | some e1 =>
        simp only [stopsAtFailure, ha] at hs
        have hcl := hs.2 ev (by simp)
        rw [failure_of_isCleanup hcl] at hf
        exact absurd hf (by simp)
      | none =>
        simp only [stopsAtFailure, ha] at hs
        exact ih hs pre1 ev post e rfl hf

theorem stopsAtFailure_none {r : Option Err} {evs : List Event} (hs : stopsAtFailure r evs) :
    r = none ↔ ∀ ev ∈ evs, ev.failure = none := by
  induction evs with
  | nil => simpa [stopsAtFailure] using hs
  | cons a rest ih =>
    cases ha : a.failure with
    | some e1 =>
      simp only [stopsAtFailure, ha] at hs
      constructor
      · intro hr
        rw [hr] at hs
        exact absurd hs.1 (by simp)
      · intro hall
        have := hall a (by simp)
        rw [ha] at this
        exact absurd this (by simp)
    | none =>
      simp only [stopsAtFailure, ha] at hs
      rw [ih hs]
      simp [ha]

theorem stopsAtFailure_addComment_last (gh : Client) (repo : Repo) (num body : String)
    (r : Option Err) (l : List Event) (hl : ∀ x ∈ l, x.isCleanup = true) :
    stopsAtFailure r (Event.AddComment gh repo num body r :: l) := by
  cases r with
  | none =>
    simp only [stopsAtFailure, Event.failure, Event.githubError]
    induction l with
    | nil => simp [stopsAtFailure]
    | cons a rest ih =>
      have ha := failure_of_isCleanup (hl a (by simp))
      simp only [stopsAtFailure, ha]
      exact ih (fun x hx => hl x (by simp [hx]))
  | some e =>
    simp only [stopsAtFailure, Event.failure, Event.githubError]
    exact ⟨trivial, hl⟩

theorem LabelShape_stops {env : Env} {gh : Client} {repo : Repo} {n : Int}
    {pr : PullRequest} {labels : List String} {dirs0 dirs1 : List String} {r : Option Err}
    {evs : List Event}
    (hl : LabelShape env gh repo n pr labels dirs0 r evs dirs1) :
    stopsAtFailure r evs := by
  rcases hl with ⟨e, rfl, rfl, rfl⟩ | ⟨evs2, rfl, ⟨evs3, rfl, hT⟩ | ⟨e, rfl, rfl, rfl⟩ |
    ⟨evs3, rfl, hT⟩⟩
  · simp [stopsAtFailure, Event.failure, Event.githubError]
  · rcases hT with ⟨e, rfl, rfl, rfl⟩ | ⟨d, evs4, rfl, rfl, ⟨e, hne, rfl, rfl⟩ | rfl |
      ⟨evs5, rfl, ⟨fs, rfl, rfl⟩ | ⟨fs, rfl⟩⟩⟩
    · simp [stopsAtFailure, Event.failure, Event.githubError]
    · simp [stopsAtFailure, Event.failure, Event.githubError, Event.isCleanup, hne]
    · simp only [stopsAtFailure, Event.failure, Event.githubError, if_true, List.cons_append,
        List.nil_append]
      exact stopsAtFailure_addComment_last _ _ _ _ _ _ (by simp [Event.isCleanup])
    · simp [stopsAtFailure, Event.failure, Event.githubError]
    · simp only [stopsAtFailure, Event.failure, Event.githubError, List.cons_append,
        List.nil_append]
      exact stopsAtFailure_addComment_last _ _ _ _ _ _ (by simp [Event.isCleanup])
  · simp [stopsAtFailure, Event.failure, Event.githubError]
  · rcases hT with ⟨e, rfl, rfl, rfl⟩ | ⟨d, evs4, rfl, rfl, ⟨e, hne, rfl, rfl⟩ | rfl |
      ⟨evs5, rfl, ⟨fs, rfl, rfl⟩ | ⟨fs, rfl⟩⟩⟩
    · simp [stopsAtFailure, Event.failure, Event.githubError]
    · simp [stopsAtFailure, Event.failure, Event.githubError, Event.isCleanup, hne]
    · simp only [stopsAtFailure, Event.failure, Event.githubError, if_true, List.cons_append,
        List.nil_append]
      exact stopsAtFailure_addComment_last _ _ _ _ _ _ (by simp [Event.isCleanup])
    · simp [stopsAtFailure, Event.failure, Event.githubError]
    · simp only [stopsAtFailure, Event.failure, Event.githubError, List.cons_append,
        List.nil_append]
      exact stopsAtFailure_addComment_last _ _ _ _ _ _ (by simp [Event.isCleanup])

theorem RunShape_stops {env : Env} {h : Handler} {prHook : PullRequestHook} {w : World}
    {r : Option Err} {evs : List Event} {dirs1 : List String}
    (hs : RunShape env h prHook w r evs dirs1) : stopsAtFailure r evs := by
  rcases hs with ⟨e, hg, rfl, rfl, rfl⟩ | ⟨pr, cls, label, evs1, hg, rfl, hc, hl⟩
  · simp [stopsAtFailure, Event.failure, Event.githubError]
  · have h1 := LabelShape_stops hl
    rcases ClassShape_events hc with rfl | ⟨b, rfl⟩
    · simpa [stopsAtFailure, Event.failure, Event.githubError] using h1
    · simpa [stopsAtFailure, Event.failure, Event.githubError] using h1

/-! ## The working copy is removed -/

theorem under_self (d : String) : under d d = true := by
  simp [under]

theorem getLast?_append_of_some {l1 l2 : List Event} {x : Event}
    (h : l2.getLast? = some x) : (l1 ++ l2).getLast? = some x := by
  rw [List.getLast?_append, h]
  rfl

theorem LabelShape_cleanup {env : Env} {gh : Client} {repo : Repo} {n : Int}
    {pr : PullRequest} {labels : List String} {dirs0 dirs1 : List String} {r : Option Err}
    {evs : List Event}
    (hl : LabelShape env gh repo n pr labels dirs0 r evs dirs1) :
    (∀ dir pfx d, Event.TempDir dir pfx (Res.ok d) ∈ evs →
      evs.getLast? = some (Event.RemoveAll d) ∧
      evs.filter Event.isCleanup = [Event.RemoveAll d] ∧
      dirs1 = (d :: dirs0).filter (fun p => !under d p)) ∧
    ((∀ dir pfx d, Event.TempDir dir pfx (Res.ok d) ∉ evs) →
      dirs1 = dirs0 ∧ evs.filter Event.isCleanup = []) := by
  rcases hl with ⟨e, rfl, rfl, rfl⟩ | ⟨evs2, rfl, ⟨evs3, rfl, hT⟩ | ⟨e, rfl, rfl, rfl⟩ |
    ⟨evs3, rfl, hT⟩⟩
  · simp [Event.isCleanup]
  · rcases hT with ⟨e, rfl, rfl, rfl⟩ | ⟨d, evs4, rfl, rfl, ⟨e, hne, rfl, rfl⟩ | rfl |
      ⟨evs5, rfl, ⟨fs, rfl, rfl⟩ | ⟨fs, rfl⟩⟩⟩
    · simp [Event.isCleanup]
    all_goals
      refine ⟨?_, fun hno => absurd (by simp) (hno "" ("pr-" ++ Itoa n) d)⟩
      intro dir pfx d1 hmem
      simp at hmem
      obtain ⟨-, -, rfl⟩ := hmem
      simp [Event.isCleanup]
  · simp [Event.isCleanup]
  · rcases hT with ⟨e, rfl, rfl, rfl⟩ | ⟨d, evs4, rfl, rfl, ⟨e, hne, rfl, rfl⟩ | rfl |
      ⟨evs5, rfl, ⟨fs, rfl, rfl⟩ | ⟨fs, rfl⟩⟩⟩
    · simp [Event.isCleanup]
    all_goals
      refine ⟨?_, fun hno => absurd (by simp) (hno "" ("pr-" ++ Itoa n) d)⟩
      intro dir pfx d1 hmem
      simp at hmem
      obtain ⟨-, -, rfl⟩ := hmem
      simp [Event.isCleanup]

/-! ## The format check -/

theorem LabelShape_gofmt {env : Env} {gh : Client} {repo : Repo} {n : Int}
    {pr : PullRequest} {labels : List String} {dirs0 dirs1 : List String} {r : Option Err}
    {evs : List Event}
    (hl : LabelShape env gh repo n pr labels dirs0 r evs dirs1) :
    (∀ temp pr1 fs, Event.checkGofmt temp pr1 false fs ∈ evs →
      evs.dropWhile (fun e => !e.isCheckGofmt) =
        [Event.checkGofmt temp pr1 false fs,
         Event.AddComment gh repo (Itoa n) (gofmtComment fs) r,
         Event.RemoveAll temp] ∧
      ∀ e ∈ evs.takeWhile (fun e => !e.isCheckGofmt), ¬ e.isGofmtComment) ∧
    (∀ temp pr1 fs, Event.checkGofmt temp pr1 true fs ∈ evs →
      ∀ e ∈ evs, ¬ e.isGofmtComment) := by
  rcases hl with ⟨e, rfl, rfl, rfl⟩ | ⟨evs2, rfl, ⟨evs3, rfl, hT⟩ | ⟨e, rfl, rfl, rfl⟩ |
    ⟨evs3, rfl, hT⟩⟩
  · simp
  · rcases hT with ⟨e, rfl, rfl, rfl⟩ | ⟨d, evs4, rfl, rfl, ⟨e, hne, rfl, rfl⟩ | rfl |
      ⟨evs5, rfl, ⟨fs, rfl, rfl⟩ | ⟨fs, rfl⟩⟩⟩
    · simp
    · simp
    · simp
    · simp [Event.isGofmtComment]
    · refine ⟨?_, by simp⟩
      intro temp pr1 fs1 hmem
      simp at hmem
      obtain ⟨rfl, rfl, rfl⟩ := hmem
      simp [Event.isGofmtComment, Event.isCheckGofmt]
  · simp
  · rcases hT with ⟨e, rfl, rfl, rfl⟩ | ⟨d, evs4, rfl, rfl, ⟨e, hne, rfl, rfl⟩ | rfl |
      ⟨evs5, rfl, ⟨fs, rfl, rfl⟩ | ⟨fs, rfl⟩⟩⟩
    · simp
    · simp
    · simp
    · simp [Event.isGofmtComment, signComment_ne_gofmtComment]
    · refine ⟨?_, by simp⟩
      intro temp pr1 fs1 hmem
      simp at hmem
      obtain ⟨rfl, rfl, rfl⟩ := hmem
      simp [Event.isGofmtComment, Event.isCheckGofmt, signComment_ne_gofmtComment]

/-! ## The joined file list, read back line by line -/

theorem splitLines_of_no_newline (a : List Char) (ha : '\n' ∉ a) : splitLines a = [a] := by
  induction a with
  | nil => rfl
  | cons c cs ih =>
    have hc : c ≠ '\n' := fun h => ha (by simp [h])
    have hcs : '\n' ∉ cs := fun h => ha (List.mem_cons_of_mem _ h)
    simp [splitLines, hc, ih hcs]

theorem splitLines_append_newline (a rest : List Char) (ha : '\n' ∉ a) :
    splitLines (a ++ '\n' :: rest) = a :: splitLines rest := by
  induction a with
  | nil => simp [splitLines]
  | cons c cs ih =>
    have hc : c ≠ '\n' := fun h => ha (by simp [h])
    have hcs : '\n' ∉ cs := fun h => ha (List.mem_cons_of_mem _ h)
    simp [splitLines, hc, ih hcs]

theorem splitLines_Join (fs : List String) (hne : fs ≠ [])
    (hfs : ∀ p ∈ fs, '\n' ∉ p.data) :
    splitLines (Join fs "\n").data = fs.map String.data := by
  induction fs with
  | nil => exact absurd rfl hne
  | cons a rest ih =>
    cases rest with
    | nil =>
      simp only [Join, List.map_cons, List.map_nil]
      exact splitLines_of_no_newline _ (hfs a (by simp))
    | cons b rest1 =>
      have hrest := ih (by simp) (fun p hp => hfs p (List.mem_cons_of_mem _ hp))
      simp only [Join, String.data_append, List.map_cons, List.append_assoc]
      rw [List.singleton_append, splitLines_append_newline _ _ (hfs a (by simp)), hrest]
      rfl

/-! ## The stages, one oracle answer at a time -/

theorem gofmtStage_good {env : Env} {gh : Client} {repo : Repo} {prHook : PullRequestHook}
    {pr : PullRequest} {temp : String} {w : World} {fs : List String}
    (hc : env.checkGofmt w temp pr = (true, fs)) :
    gofmtStage env gh repo prHook pr temp w = (none, w.emit (Event.checkGofmt temp pr true fs)) := by
  unfold gofmtStage
  simp [hc]

theorem gofmtStage_bad {env : Env} {gh : Client} {repo : Repo} {prHook : PullRequestHook}
    {pr : PullRequest} {temp : String} {w : World} {fs : List String}
    (hc : env.checkGofmt w temp pr = (false, fs)) :
    (gofmtStage env gh repo prHook pr temp w).1 =
      env.AddComment (w.emit (Event.checkGofmt temp pr false fs)) gh repo (Itoa prHook.Number)
        (gofmtComment fs) ∧
    (gofmtStage env gh repo prHook pr temp w).2.trace =
      w.trace ++ [Event.checkGofmt temp pr false fs,
        Event.AddComment gh repo (Itoa prHook.Number) (gofmtComment fs)
          (env.AddComment (w.emit (Event.checkGofmt temp pr false fs)) gh repo
            (Itoa prHook.Number) (gofmtComment fs))] ∧
    (gofmtStage env gh repo prHook pr temp w).2.dirs = w.dirs := by
  unfold gofmtStage
  simp only [hc, Bool.not_false, if_true]
  cases ha : env.AddComment (w.emit (Event.checkGofmt temp pr false fs)) gh repo
      (Itoa prHook.Number) (gofmtComment fs) <;>
    simp [World.emit, World.log]

theorem checkoutStage_fail {env : Env} {gh : Client} {repo : Repo} {prHook : PullRequestHook}
    {pr : PullRequest} {temp : String} {w : World} {e : Err}
    (hc : env.checkout w temp pr.Base.Repo.HTMLURL prHook.Number = some e)
    (hne : e ≠ Err.MergeError) :
    checkoutStage env gh repo prHook pr temp w =
      (some e, w.emit (Event.checkout temp pr.Base.Repo.HTMLURL prHook.Number (some e))) := by
  unfold checkoutStage
  simp [hc, hne]

theorem checkoutStage_conflict {env : Env} {gh : Client} {repo : Repo}
    {prHook : PullRequestHook} {pr : PullRequest} {temp : String} {w : World}
    (hc : env.checkout w temp pr.Base.Repo.HTMLURL prHook.Number = some Err.MergeError) :
    (checkoutStage env gh repo prHook pr temp w).1 =
      env.AddComment
        (w.emit (Event.checkout temp pr.Base.Repo.HTMLURL prHook.Number (some Err.MergeError)))
        gh repo (Itoa prHook.Number) conflictComment ∧
    (checkoutStage env gh repo prHook pr temp w).2.trace =
      w.trace ++ [Event.checkout temp pr.Base.Repo.HTMLURL prHook.Number (some Err.MergeError),
        Event.AddComment gh repo (Itoa prHook.Number) conflictComment
          (env.AddComment
            (w.emit (Event.checkout temp pr.Base.Repo.HTMLURL prHook.Number
              (some Err.MergeError)))
            gh repo (Itoa prHook.Number) conflictComment)] ∧
    (checkoutStage env gh repo prHook pr temp w).2.dirs = w.dirs := by
  unfold checkoutStage
  simp only [hc, if_true]
  cases ha : env.AddComment
      (w.emit (Event.checkout temp pr.Base.Repo.HTMLURL prHook.Number (some Err.MergeError)))
      gh repo (Itoa prHook.Number) conflictComment <;>
    simp [World.emit, World.log]

theorem checkoutStage_ok {env : Env} {gh : Client} {repo : Repo} {prHook : PullRequestHook}
    {pr : PullRequest} {temp : String} {w : World}
    (hc : env.checkout w temp pr.Base.Repo.HTMLURL prHook.Number = none) :
    checkoutStage env gh repo prHook pr temp w =
      gofmtStage env gh repo prHook pr temp
        (w.emit (Event.checkout temp pr.Base.Repo.HTMLURL prHook.Number none)) := by
  unfold checkoutStage
  simp [hc]

theorem tempStage_fail {env : Env} {gh : Client} {repo : Repo} {prHook : PullRequestHook}
    {pr : PullRequest} {w : World} {e : Err}
    (hc : env.TempDir w "" ("pr-" ++ Itoa prHook.Number) = Res.error e) :
    tempStage env gh repo prHook pr w =
      (some e, w.emit (Event.TempDir "" ("pr-" ++ Itoa prHook.Number) (Res.error e))) := by
  unfold tempStage
  simp [hc]

theorem tempStage_ok {env : Env} {gh : Client} {repo : Repo} {prHook : PullRequestHook}
    {pr : PullRequest} {w : World} {d : String}
    (hc : env.TempDir w "" ("pr-" ++ Itoa prHook.Number) = Res.ok d) :
    tempStage env gh repo prHook pr w =
      ((checkoutStage env gh repo prHook pr d
          ((w.emit (Event.TempDir "" ("pr-" ++ Itoa prHook.Number) (Res.ok d))).mkdir d)).1,
       (checkoutStage env gh repo prHook pr d
          ((w.emit (Event.TempDir "" ("pr-" ++ Itoa prHook.Number) (Res.ok d))).mkdir d)).2.RemoveAll
          d) := by
  unfold tempStage
  simp [hc]

theorem signingStage_signed {env : Env} {gh : Client} {repo : Repo} {prHook : PullRequestHook}
    {pr : PullRequest} {w : World}
    (hc : env.commitsAreSigned w pr = true) :
    signingStage env gh repo prHook pr w =
      tempStage env gh repo prHook pr (w.emit (Event.commitsAreSigned pr true)) := by
  unfold signingStage
  simp [hc]

theorem signingStage_fail {env : Env} {gh : Client} {repo : Repo} {prHook : PullRequestHook}
    {pr : PullRequest} {w : World} {e : Err}
    (hc : env.commitsAreSigned w pr = false)
    (ha : env.AddComment (w.emit (Event.commitsAreSigned pr false)) gh repo
      (Itoa prHook.Number) (signComment env pr) = some e) :
    signingStage env gh repo prHook pr w =
      (some e, (w.emit (Event.commitsAreSigned pr false)).emit
        (Event.AddComment gh repo (Itoa prHook.Number) (signComment env pr) (some e))) := by
  unfold signingStage
  simp [hc, ha]

theorem signingStage_ok {env : Env} {gh : Client} {repo : Repo} {prHook : PullRequestHook}
    {pr : PullRequest} {w : World}
    (hc : env.commitsAreSigned w pr = false)
    (ha : env.AddComment (w.emit (Event.commitsAreSigned pr false)) gh repo
      (Itoa prHook.Number) (signComment env pr) = none) :
    signingStage env gh repo prHook pr w =
      tempStage env gh repo prHook pr
        (((w.emit (Event.commitsAreSigned pr false)).emit
          (Event.AddComment gh repo (Itoa prHook.Number) (signComment env pr) none)).log
          (LogEntry.Infof "Added comment to unsigned PR %d" [LogArg.int prHook.Number])) := by
  unfold signingStage
  simp [hc, ha]

theorem labelStage_fail {env : Env} {h : Handler} {prHook : PullRequestHook}
    {pr : PullRequest} {label : String} {w : World} {e : Err}
    (ha : env.ApplyLabel ((w.emit (Event.Sleep (30 * Second))).log
        (LogEntry.Debugf "Adding labels %#v to pr %d"
          [LogArg.strs [label], LogArg.int prHook.Number]))
        (hookClient h) (hookRepo prHook) ⟨prHook.Number⟩ [label] = some e) :
    labelStage env h prHook pr [label] w =
      (some e, ((w.emit (Event.Sleep (30 * Second))).log
        (LogEntry.Debugf "Adding labels %#v to pr %d"
          [LogArg.strs [label], LogArg.int prHook.Number])).emit
        (Event.ApplyLabel (hookClient h) (hookRepo prHook) ⟨prHook.Number⟩ [label] (some e))) := by
  unfold labelStage
  simp only [hookClient, hookRepo] at ha ⊢
  simp [ha]

theorem labelStage_ok {env : Env} {h : Handler} {prHook : PullRequestHook}
    {pr : PullRequest} {label : String} {w : World}
    (ha : env.ApplyLabel ((w.emit (Event.Sleep (30 * Second))).log
        (LogEntry.Debugf "Adding labels %#v to pr %d"
          [LogArg.strs [label], LogArg.int prHook.Number]))
        (hookClient h) (hookRepo prHook) ⟨prHook.Number⟩ [label] = none) :
    labelStage env h prHook pr [label] w =
      signingStage env (hookClient h) (hookRepo prHook) prHook pr
        ((((w.emit (Event.Sleep (30 * Second))).log
          (LogEntry.Debugf "Adding labels %#v to pr %d"
            [LogArg.strs [label], LogArg.int prHook.Number])).emit
          (Event.ApplyLabel (hookClient h) (hookRepo prHook) ⟨prHook.Number⟩ [label] none)).log
          (LogEntry.Infof "Added labels %#v to pr %d"
            [LogArg.strs [label], LogArg.int prHook.Number])) := by
  unfold labelStage
  simp only [hookClient, hookRepo] at ha ⊢
  simp [ha]

/-! ## Where a run is after each step that went well -/

theorem chooseLabels_trace (env : Env) (prHook : PullRequestHook) (pr : PullRequest) (w : World) :
    (chooseLabels env prHook pr (worldGot prHook pr w)).2.trace =
      (worldGot prHook pr w).trace ++ classEvents env prHook pr w ∧
    (chooseLabels env prHook pr (worldGot prHook pr w)).2.dirs = w.dirs := by
  unfold chooseLabels classEvents
  dsimp only
  cases hp : Contains (ToLower env prHook.PullRequest.Title) "proposal" with
  | true => simp [worldGot, World.emit]
  | false =>
    cases hd : env.isDocsOnly (worldGot prHook pr w) pr <;> simp [worldGot, World.emit]

theorem runLabels_single (env : Env) (prHook : PullRequestHook) (pr : PullRequest) (w : World) :
    ∃ label, runLabels env prHook pr w = [label] := by
  obtain ⟨cls, label, hl, -⟩ := chooseLabels_shape env prHook pr (worldGot prHook pr w)
  exact ⟨label, hl⟩

theorem worldApplyLabel_trace (env : Env) (prHook : PullRequestHook) (pr : PullRequest)
    (w : World) :
    (worldApplyLabel env prHook pr w).trace = w.trace ++ eventsBeforeApplyLabel env prHook pr w ∧
    (worldApplyLabel env prHook pr w).dirs = w.dirs := by
  obtain ⟨ht, hd⟩ := chooseLabels_trace env prHook pr w
  unfold worldApplyLabel eventsBeforeApplyLabel
  simp only [World.emit, World.log] at ht ⊢
  rw [ht, hd]
  simp [worldGot, World.emit]

theorem worldSigning_trace (env : Env) (h : Handler) (prHook : PullRequestHook)
    (pr : PullRequest) (w : World) :
    (worldSigning env h prHook pr w).trace = w.trace ++ eventsBeforeSigning env h prHook pr w ∧
    (worldSigning env h prHook pr w).dirs = w.dirs := by
  obtain ⟨ht, hd⟩ := worldApplyLabel_trace env prHook pr w
  simp [worldSigning, eventsBeforeSigning, World.emit, World.log, ht, hd]

theorem worldTempDir_trace (env : Env) (h : Handler) (prHook : PullRequestHook)
    (pr : PullRequest) (w : World) (signed : Bool) :
    (worldTempDir env h prHook pr w signed).trace =
      w.trace ++ eventsBeforeTempDir env h prHook pr w signed ∧
    (worldTempDir env h prHook pr w signed).dirs = w.dirs := by
  obtain ⟨ht, hd⟩ := worldSigning_trace env h prHook pr w
  cases signed <;>
    simp [worldTempDir, worldSignComment, eventsBeforeTempDir, World.emit, World.log, ht, hd]

theorem worldCheckout_trace (env : Env) (h : Handler) (prHook : PullRequestHook)
    (pr : PullRequest) (w : World) (signed : Bool) (d : String) :
    (worldCheckout env h prHook pr w signed d).trace =
      w.trace ++ (eventsBeforeTempDir env h prHook pr w signed ++
        [Event.TempDir "" ("pr-" ++ Itoa prHook.Number) (Res.ok d)]) ∧
    (worldCheckout env h prHook pr w signed d).dirs = d :: w.dirs := by
  obtain ⟨ht, hd⟩ := worldTempDir_trace env h prHook pr w signed
  simp [worldCheckout, World.emit, World.mkdir, ht, hd]

theorem reach_label {env : Env} {h : Handler} {m : Message} {w : World}
    {prHook : PullRequestHook} {pr : PullRequest}
    (hparse : env.ParsePullRequestHook m.Body = Res.ok prHook)
    (hopen : prHook.IsOpened = true)
    (hg : env.getPR w prHook.PullRequest.Url = Res.ok pr) :
    HandleMessage env h m w =
      labelStage env h prHook pr (runLabels env prHook pr w)
        (chooseLabels env prHook pr (worldGot prHook pr w)).2 := by
  unfold HandleMessage
  simp [hparse, hopen, hg, runLabels, worldGot]

theorem reach_label_fail {env : Env} {h : Handler} {m : Message} {w : World}
    {prHook : PullRequestHook} {pr : PullRequest} {e : Err}
    (hparse : env.ParsePullRequestHook m.Body = Res.ok prHook)
    (hopen : prHook.IsOpened = true)
    (hg : env.getPR w prHook.PullRequest.Url = Res.ok pr)
    (ha : env.ApplyLabel (worldApplyLabel env prHook pr w) (hookClient h) (hookRepo prHook)
      ⟨prHook.Number⟩ (runLabels env prHook pr w) = some e) :
    HandleMessage env h m w =
      (some e, (worldApplyLabel env prHook pr w).emit
        (Event.ApplyLabel (hookClient h) (hookRepo prHook) ⟨prHook.Number⟩
          (runLabels env prHook pr w) (some e))) := by
  rw [reach_label hparse hopen hg]
  obtain ⟨label, hl⟩ := runLabels_single env prHook pr w
  unfold worldApplyLabel at ha ⊢
  rw [hl] at ha ⊢
  exact labelStage_fail ha

theorem reach_signing {env : Env} {h : Handler} {m : Message} {w : World}
    {prHook : PullRequestHook} {pr : PullRequest}
    (hparse : env.ParsePullRequestHook m.Body = Res.ok prHook)
    (hopen : prHook.IsOpened = true)
    (hg : env.getPR w prHook.PullRequest.Url = Res.ok pr)
    (ha : env.ApplyLabel (worldApplyLabel env prHook pr w) (hookClient h) (hookRepo prHook)
      ⟨prHook.Number⟩ (runLabels env prHook pr w) = none) :
    HandleMessage env h m w =
      signingStage env (hookClient h) (hookRepo prHook) prHook pr
        (worldSigning env h prHook pr w) := by
  rw [reach_label hparse hopen hg]
  obtain ⟨label, hl⟩ := runLabels_single env prHook pr w
  unfold worldSigning worldApplyLabel at *
  rw [hl] at ha ⊢
  exact labelStage_ok ha

theorem reach_temp {env : Env} {h : Handler} {m : Message} {w : World}
    {prHook : PullRequestHook} {pr : PullRequest} {signed : Bool}
    (hparse : env.ParsePullRequestHook m.Body = Res.ok prHook)
    (hopen : prHook.IsOpened = true)
    (hg : env.getPR w prHook.PullRequest.Url = Res.ok pr)
    (ha : env.ApplyLabel (worldApplyLabel env prHook pr w) (hookClient h) (hookRepo prHook)
      ⟨prHook.Number⟩ (runLabels env prHook pr w) = none)
    (hs : env.commitsAreSigned (worldSigning env h prHook pr w) pr = signed)
    (hc : signed = false →
      env.AddComment (worldSignComment env h prHook pr w) (hookClient h) (hookRepo prHook)
        (Itoa prHook.Number) (signComment env pr) = none) :
    HandleMessage env h m w =
      tempStage env (hookClient h) (hookRepo prHook) prHook pr
        (worldTempDir env h prHook pr w signed) := by
  rw [reach_signing hparse hopen hg ha]
  cases signed with
  | true =>
    rw [signingStage_signed hs]
    simp [worldTempDir]
  | false =>
    have hc1 := hc rfl
    unfold worldSignComment at hc1
    rw [signingStage_ok hs hc1]
    simp [worldTempDir, worldSignComment]

theorem reach_checkout {env : Env} {h : Handler} {m : Message} {w : World}
    {prHook : PullRequestHook} {pr : PullRequest} {signed : Bool} {d : String}
    (hparse : env.ParsePullRequestHook m.Body = Res.ok prHook)
    (hopen : prHook.IsOpened = true)
    (hg : env.getPR w prHook.PullRequest.Url = Res.ok pr)
    (ha : env.ApplyLabel (worldApplyLabel env prHook pr w) (hookClient h) (hookRepo prHook)
      ⟨prHook.Number⟩ (runLabels env prHook pr w) = none)
    (hs : env.commitsAreSigned (worldSigning env h prHook pr w) pr = signed)
    (hc : signed = false →
      env.AddComment (worldSignComment env h prHook pr w) (hookClient h) (hookRepo prHook)
        (Itoa prHook.Number) (signComment env pr) = none)
    (ht : env.TempDir (worldTempDir env h prHook pr w signed) ""
      ("pr-" ++ Itoa prHook.Number) = Res.ok d) :
    HandleMessage env h m w =
      ((checkoutStage env (hookClient h) (hookRepo prHook) prHook pr d
          (worldCheckout env h prHook pr w signed d)).1,
       (checkoutStage env (hookClient h) (hookRepo prHook) prHook pr d
          (worldCheckout env h prHook pr w signed d)).2.RemoveAll d) := by
  rw [reach_temp hparse hopen hg ha hs hc, tempStage_ok ht]
  rfl

/-! ## The end of a run, by the oracle answers that lead to it -/

theorem end_getPR_fail {env : Env} {h : Handler} {m : Message} {w : World}
    {prHook : PullRequestHook} {e : Err}
    (hparse : env.ParsePullRequestHook m.Body = Res.ok prHook)
    (hopen : prHook.IsOpened = true)
    (hg : env.getPR w prHook.PullRequest.Url = Res.error e) :
    (HandleMessage env h m w).1 = some e ∧
    runEvents env h m w = [Event.getPR prHook.PullRequest.Url (Res.error e)] := by
  have heq : HandleMessage env h m w =
      (some e, w.emit (Event.getPR prHook.PullRequest.Url (Res.error e))) := by
    unfold HandleMessage
    simp [hparse, hopen, hg]
  refine ⟨by rw [heq], runEvents_eq env h m w _ ?_⟩
  rw [heq]
  rfl

theorem end_label_fail {env : Env} {h : Handler} {m : Message} {w : World}
    {prHook : PullRequestHook} {pr : PullRequest} {e : Err}
    (hparse : env.ParsePullRequestHook m.Body = Res.ok prHook)
    (hopen : prHook.IsOpened = true)
    (hg : env.getPR w prHook.PullRequest.Url = Res.ok pr)
    (ha : env.ApplyLabel (worldApplyLabel env prHook pr w) (hookClient h) (hookRepo prHook)
      ⟨prHook.Number⟩ (runLabels env prHook pr w) = some e) :
    (HandleMessage env h m w).1 = some e ∧
    runEvents env h m w = eventsBeforeApplyLabel env prHook pr w ++
      [Event.ApplyLabel (hookClient h) (hookRepo prHook) ⟨prHook.Number⟩
        (runLabels env prHook pr w) (some e)] := by
  have heq := reach_label_fail (h := h) hparse hopen hg ha
  refine ⟨by rw [heq], runEvents_eq env h m w _ ?_⟩
  rw [heq]
  simp only [World.emit, (worldApplyLabel_trace env prHook pr w).1, List.append_assoc]

theorem end_sign_fail {env : Env} {h : Handler} {m : Message} {w : World}
    {prHook : PullRequestHook} {pr : PullRequest} {e : Err}
    (hparse : env.ParsePullRequestHook m.Body = Res.ok prHook)
    (hopen : prHook.IsOpened = true)
    (hg : env.getPR w prHook.PullRequest.Url = Res.ok pr)
    (ha : env.ApplyLabel (worldApplyLabel env prHook pr w) (hookClient h) (hookRepo prHook)
      ⟨prHook.Number⟩ (runLabels env prHook pr w) = none)
    (hs : env.commitsAreSigned (worldSigning env h prHook pr w) pr = false)
    (hc : env.AddComment (worldSignComment env h prHook pr w) (hookClient h) (hookRepo prHook)
        (Itoa prHook.Number) (signComment env pr) = some e) :
    (HandleMessage env h m w).1 = some e ∧
    runEvents env h m w = eventsBeforeSigning env h prHook pr w ++
      [Event.commitsAreSigned pr false,
       Event.AddComment (hookClient h) (hookRepo prHook) (Itoa prHook.Number)
         (signComment env pr) (some e)] := by
  have hc1 := hc
  unfold worldSignComment at hc1
  have heq := (reach_signing (h := h) hparse hopen hg ha).trans (signingStage_fail hs hc1)
  refine ⟨by rw [heq], runEvents_eq env h m w _ ?_⟩
  rw [heq]
  simp only [World.emit, (worldSigning_trace env h prHook pr w).1, List.append_assoc,
    List.singleton_append]

theorem end_temp_fail {env : Env} {h : Handler} {m : Message} {w : World}
    {prHook : PullRequestHook} {pr : PullRequest} {signed : Bool} {e : Err}
    (hparse : env.ParsePullRequestHook m.Body = Res.ok prHook)
    (hopen : prHook.IsOpened = true)
    (hg : env.getPR w prHook.PullRequest.Url = Res.ok pr)
    (ha : env.ApplyLabel (worldApplyLabel env prHook pr w) (hookClient h) (hookRepo prHook)
      ⟨prHook.Number⟩ (runLabels env prHook pr w) = none)
    (hs : env.commitsAreSigned (worldSigning env h prHook pr w) pr = signed)
    (hc : signed = false →
      env.AddComment (worldSignComment env h prHook pr w) (hookClient h) (hookRepo prHook)
        (Itoa prHook.Number) (signComment env pr) = none)
    (ht : env.TempDir (worldTempDir env h prHook pr w signed) ""
      ("pr-" ++ Itoa prHook.Number) = Res.error e) :
    (HandleMessage env h m w).1 = some e ∧
    runEvents env h m w = eventsBeforeTempDir env h prHook pr w signed ++
      [Event.TempDir "" ("pr-" ++ Itoa prHook.Number) (Res.error e)] := by
  have heq := (reach_temp (h := h) hparse hopen hg ha hs hc).trans (tempStage_fail ht)
  refine ⟨by rw [heq], runEvents_eq env h m w _ ?_⟩
  rw [heq]
  simp only [World.emit, (worldTempDir_trace env h prHook pr w signed).1, List.append_assoc]

theorem end_checkout_fail {env : Env} {h : Handler} {m : Message} {w : World}
    {prHook : PullRequestHook} {pr : PullRequest} {signed : Bool} {d : String} {e : Err}
    (hparse : env.ParsePullRequestHook m.Body = Res.ok prHook)
    (hopen : prHook.IsOpened = true)
    (hg : env.getPR w prHook.PullRequest.Url = Res.ok pr)
    (ha : env.ApplyLabel (worldApplyLabel env prHook pr w) (hookClient h) (hookRepo prHook)
      ⟨prHook.Number⟩ (runLabels env prHook pr w) = none)
    (hs : env.commitsAreSigned (worldSigning env h prHook pr w) pr = signed)
    (hc : signed = false →
      env.AddComment (worldSignComment env h prHook pr w) (hookClient h) (hookRepo prHook)
        (Itoa prHook.Number) (signComment env pr) = none)
    (ht : env.TempDir (worldTempDir env h prHook pr w signed) ""
      ("pr-" ++ Itoa prHook.Number) = Res.ok d)
    (hk : env.checkout (worldCheckout env h prHook pr w signed d) d pr.Base.Repo.HTMLURL
      prHook.Number = some e)
    (hne : e ≠ Err.MergeError) :
    (HandleMessage env h m w).1 = some e ∧
    runEvents env h m w = eventsBeforeTempDir env h prHook pr w signed ++
      [Event.TempDir "" ("pr-" ++ Itoa prHook.Number) (Res.ok d),
       Event.checkout d pr.Base.Repo.HTMLURL prHook.Number (some e),
       Event.RemoveAll d] := by
  have heq := reach_checkout (h := h) hparse hopen hg ha hs hc ht
  rw [checkoutStage_fail hk hne] at heq
  refine ⟨by rw [heq], runEvents_eq env h m w _ ?_⟩
  rw [heq]
  simp [World.emit, World.RemoveAll, (worldCheckout_trace env h prHook pr w signed d).1]

theorem end_conflict {env : Env} {h : Handler} {m : Message} {w : World}
    {prHook : PullRequestHook} {pr : PullRequest} {signed : Bool} {d : String}
    (hparse : env.ParsePullRequestHook m.Body = Res.ok prHook)
    (hopen : prHook.IsOpened = true)
    (hg : env.getPR w prHook.PullRequest.Url = Res.ok pr)
    (ha : env.ApplyLabel (worldApplyLabel env prHook pr w) (hookClient h) (hookRepo prHook)
      ⟨prHook.Number⟩ (runLabels env prHook pr w) = none)
    (hs : env.commitsAreSigned (worldSigning env h prHook pr w) pr = signed)
    (hc : signed = false →
      env.AddComment (worldSignComment env h prHook pr w) (hookClient h) (hookRepo prHook)
        (Itoa prHook.Number) (signComment env pr) = none)
    (ht : env.TempDir (worldTempDir env h prHook pr w signed) ""
      ("pr-" ++ Itoa prHook.Number) = Res.ok d)
    (hk : env.checkout (worldCheckout env h prHook pr w signed d) d pr.Base.Repo.HTMLURL
      prHook.Number = some Err.MergeError) :
    (HandleMessage env h m w).1 =
      env.AddComment (worldAfterCheckout env h prHook pr w signed d (some Err.MergeError))
        (hookClient h) (hookRepo prHook) (Itoa prHook.Number) conflictComment ∧
    runEvents env h m w = eventsBeforeTempDir env h prHook pr w signed ++
      [Event.TempDir "" ("pr-" ++ Itoa prHook.Number) (Res.ok d),
       Event.checkout d pr.Base.Repo.HTMLURL prHook.Number (some Err.MergeError),
       Event.AddComment (hookClient h) (hookRepo prHook) (Itoa prHook.Number) conflictComment
         (env.AddComment (worldAfterCheckout env h prHook pr w signed d (some Err.MergeError))
           (hookClient h) (hookRepo prHook) (Itoa prHook.Number) conflictComment),
       Event.RemoveAll d] := by
  have heq := reach_checkout (h := h) hparse hopen hg ha hs hc ht
  obtain ⟨h1, h2, -⟩ := @checkoutStage_conflict env (hookClient h) (hookRepo prHook) prHook pr d _ hk
  refine ⟨by rw [heq]; exact h1, runEvents_eq env h m w _ ?_⟩
  rw [heq]
  simp only [World.RemoveAll, h2, (worldCheckout_trace env h prHook pr w signed d).1,
    List.append_assoc, List.singleton_append, List.cons_append, List.nil_append]
  rfl

theorem end_gofmt_bad {env : Env} {h : Handler} {m : Message} {w : World}
    {prHook : PullRequestHook} {pr : PullRequest} {signed : Bool} {d : String}
    {fs : List String}
    (hparse : env.ParsePullRequestHook m.Body = Res.ok prHook)
    (hopen : prHook.IsOpened = true)
    (hg : env.getPR w prHook.PullRequest.Url = Res.ok pr)
    (ha : env.ApplyLabel (worldApplyLabel env prHook pr w) (hookClient h) (hookRepo prHook)
      ⟨prHook.Number⟩ (runLabels env prHook pr w) = none)
    (hs : env.commitsAreSigned (worldSigning env h prHook pr w) pr = signed)
    (hc : signed = false →
      env.AddComment (worldSignComment env h prHook pr w) (hookClient h) (hookRepo prHook)
        (Itoa prHook.Number) (signComment env pr) = none)
    (ht : env.TempDir (worldTempDir env h prHook pr w signed) ""
      ("pr-" ++ Itoa prHook.Number) = Res.ok d)
    (hk : env.checkout (worldCheckout env h prHook pr w signed d) d pr.Base.Repo.HTMLURL
      prHook.Number = none)
    (hf : env.checkGofmt (worldAfterCheckout env h prHook pr w signed d none) d pr
      = (false, fs)) :
    (HandleMessage env h m w).1 =
      env.AddComment (worldGofmtComment env h prHook pr w signed d fs)
        (hookClient h) (hookRepo prHook) (Itoa prHook.Number) (gofmtComment fs) ∧
    runEvents env h m w = eventsBeforeTempDir env h prHook pr w signed ++
      [Event.TempDir "" ("pr-" ++ Itoa prHook.Number) (Res.ok d),
       Event.checkout d pr.Base.Repo.HTMLURL prHook.Number none,
       Event.checkGofmt d pr false fs,
       Event.AddComment (hookClient h) (hookRepo prHook) (Itoa prHook.Number) (gofmtComment fs)
         (env.AddComment (worldGofmtComment env h prHook pr w signed d fs)
           (hookClient h) (hookRepo prHook) (Itoa prHook.Number) (gofmtComment fs)),
       Event.RemoveAll d] := by
  have heq := reach_checkout (h := h) hparse hopen hg ha hs hc ht
  rw [checkoutStage_ok hk] at heq
  have hf1 := hf
  unfold worldAfterCheckout at hf1
  obtain ⟨h1, h2, -⟩ := @gofmtStage_bad env (hookClient h) (hookRepo prHook) prHook pr d _ fs
    hf1
  refine ⟨by rw [heq]; exact h1, runEvents_eq env h m w _ ?_⟩
  rw [heq]
  simp only [World.RemoveAll]
  rw [h2]
  simp [World.emit, (worldCheckout_trace env h prHook pr w signed d).1, worldGofmtComment,
    worldAfterCheckout]

theorem end_gofmt_good {env : Env} {h : Handler} {m : Message} {w : World}
    {prHook : PullRequestHook} {pr : PullRequest} {signed : Bool} {d : String}
    {fs : List String}
    (hparse : env.ParsePullRequestHook m.Body = Res.ok prHook)
    (hopen : prHook.IsOpened = true)
    (hg : env.getPR w prHook.PullRequest.Url = Res.ok pr)
    (ha : env.ApplyLabel (worldApplyLabel env prHook pr w) (hookClient h) (hookRepo prHook)
      ⟨prHook.Number⟩ (runLabels env prHook pr w) = none)
    (hs : env.commitsAreSigned (worldSigning env h prHook pr w) pr = signed)
    (hc : signed = false →
      env.AddComment (worldSignComment env h prHook pr w) (hookClient h) (hookRepo prHook)
        (Itoa prHook.Number) (signComment env pr) = none)
    (ht : env.TempDir (worldTempDir env h prHook pr w signed) ""
      ("pr-" ++ Itoa prHook.Number) = Res.ok d)
    (hk : env.checkout (worldCheckout env h prHook pr w signed d) d pr.Base.Repo.HTMLURL
      prHook.Number = none)
    (hf : env.checkGofmt (worldAfterCheckout env h prHook pr w signed d none) d pr
      = (true, fs)) :
    (HandleMessage env h m w).1 = none ∧
    runEvents env h m w = eventsBeforeTempDir env h prHook pr w signed ++
      [Event.TempDir "" ("pr-" ++ Itoa prHook.Number) (Res.ok d),
       Event.checkout d pr.Base.Repo.HTMLURL prHook.Number none,
       Event.checkGofmt d pr true fs,
       Event.RemoveAll d] := by
  have heq := reach_checkout (h := h) hparse hopen hg ha hs hc ht
  rw [checkoutStage_ok hk] at heq
  have hf1 := hf
  unfold worldAfterCheckout at hf1
  rw [gofmtStage_good hf1] at heq
  refine ⟨by rw [heq], runEvents_eq env h m w _ ?_⟩
  rw [heq]
  simp only [World.RemoveAll, World.emit,
    (worldCheckout_trace env h prHook pr w signed d).1,
    List.append_assoc, List.singleton_append, List.cons_append, List.nil_append]

theorem runLabels_mem (env : Env) (prHook : PullRequestHook) (pr : PullRequest) (w : World) :
    ∃ label, label ∈ [ "1-design-review", "3-docs-review", "0-triage" ] ∧
      runLabels env prHook pr w = [label] := by
  obtain ⟨cls, label, hl, -, -, -, hc⟩ := chooseLabels_shape env prHook pr (worldGot prHook pr w)
  exact ⟨label, ClassShape_label hc, hl⟩

theorem classEvents_cases (env : Env) (prHook : PullRequestHook) (pr : PullRequest) (w : World) :
    classEvents env prHook pr w = [] ∨
    ∃ b, classEvents env prHook pr w = [Event.isDocsOnly pr b] := by
  unfold classEvents
  split
  · exact Or.inl rfl
  · exact Or.inr ⟨_, rfl⟩

/-! ## The claims -/

/-- C3: when the decoder returns an error, the handler returns nil, calls no
collaborator (no getPR, sleep, ApplyLabel, AddComment, TempDir, checkout) and
leaves the directories as they were; it only writes a debug log line. -/
theorem parse_error_is_benign_skip (env : Env) (h : Handler) (m : Message) (w : World) (e : Err)
    (hparse : env.ParsePullRequestHook m.Body = Res.error e) :
    (HandleMessage env h m w).1 = none ∧ runEvents env h m w = [] ∧
    (HandleMessage env h m w).2.trace = w.trace ∧
    (HandleMessage env h m w).2.dirs = w.dirs := by
  simp [runEvents, HandleMessage, hparse, World.log]

/-- C4: a hook that decodes but is not "opened" makes the handler return nil
and leave the world untouched: no collaborator call, no directory, no log. -/
theorem not_opened_is_skip (env : Env) (h : Handler) (m : Message) (w : World)
    (prHook : PullRequestHook)
    (hparse : env.ParsePullRequestHook m.Body = Res.ok prHook)
    (hopen : prHook.IsOpened = false) :
    HandleMessage env h m w = (none, w) ∧ runEvents env h m w = [] := by
  simp [runEvents, HandleMessage, hparse, hopen]

/-- C1: for an opened hook whose lower-cased title contains "proposal", every
ApplyLabel call of the run carries exactly the label 1-design-review, for every
environment (so whatever isDocsOnly and checkGofmt answer); and when getPR
succeeds the run makes exactly one ApplyLabel call, with that label. -/
theorem proposal_title_gets_design_review (env : Env) (h : Handler) (m : Message) (w : World)
    (prHook : PullRequestHook)
    (hparse : env.ParsePullRequestHook m.Body = Res.ok prHook)
    (hopen : prHook.IsOpened = true)
    (hprop : Contains (ToLower env prHook.PullRequest.Title) "proposal" = true) :
    (∀ gh repo issue labels res,
      Event.ApplyLabel gh repo issue labels res ∈ runEvents env h m w →
        labels = [ "1-design-review" ]) ∧
    (∀ pr, env.getPR w prHook.PullRequest.Url = Res.ok pr →
      ∃ res, (runEvents env h m w).filter Event.isApplyLabel =
        [Event.ApplyLabel (hookClient h) (hookRepo prHook) ⟨prHook.Number⟩
          [ "1-design-review" ] res]) := by
  obtain ⟨evs, ht, hs⟩ := HandleMessage_shape env h m w prHook hparse hopen
  rw [runEvents_eq env h m w evs ht]
  have key : ∀ pr, env.getPR w prHook.PullRequest.Url = Res.ok pr →
      ∃ res, evs.filter Event.isApplyLabel =
        [Event.ApplyLabel (hookClient h) (hookRepo prHook) ⟨prHook.Number⟩
          [ "1-design-review" ] res] := by
    intro pr hpr
    obtain ⟨cls, label, res, hc, hf⟩ := RunShape_applyLabel hs hpr
    rcases hc with ⟨-, -, rfl⟩ | ⟨hp, -, -, -⟩ | ⟨hp, -, -, -⟩
    · exact ⟨res, hf⟩
    · rw [hprop] at hp; exact absurd hp (by decide)
    · rw [hprop] at hp; exact absurd hp (by decide)
  refine ⟨?_, key⟩
  intro gh repo issue labels res hmem
  have hmem2 : Event.ApplyLabel gh repo issue labels res ∈ evs.filter Event.isApplyLabel :=
    List.mem_filter.mpr ⟨hmem, rfl⟩
  cases hg : env.getPR w prHook.PullRequest.Url with
  | ok pr =>
    obtain ⟨res1, hres1⟩ := key pr hg
    rw [hres1] at hmem2
    simp only [List.mem_singleton, Event.ApplyLabel.injEq] at hmem2
    exact hmem2.2.2.2.1
  | error e =>
    rcases hs with ⟨e1, -, rfl, -, -⟩ | ⟨pr1, cls, label, evs1, hg1, -, -, -⟩
    · simp at hmem
    · rw [hg] at hg1; exact absurd hg1 (by simp)

/-- Witness of C3: a body the decoder rejects. -/
theorem parse_error_is_benign_skip_witness :
    (sampleEnv (Res.error (Err.other "not a hook")) false true none (true, [])
        (fun _ => none)).ParsePullRequestHook sampleMessage.Body
      = Res.error (Err.other "not a hook") ∧
    (HandleMessage (sampleEnv (Res.error (Err.other "not a hook")) false true none (true, [])
        (fun _ => none)) sampleHandler sampleMessage sampleWorld).1 = none :=
  ⟨rfl, (parse_error_is_benign_skip _ sampleHandler sampleMessage sampleWorld
    (Err.other "not a hook") rfl).1⟩

/-- Witness of C4: a "closed" hook. -/
theorem not_opened_is_skip_witness :
    (sampleHook "closed" "Fix typo").IsOpened = false ∧
    HandleMessage (sampleEnv (Res.ok (sampleHook "closed" "Fix typo")) false true none
        (true, []) (fun _ => none)) sampleHandler sampleMessage sampleWorld
      = (none, sampleWorld) :=
  ⟨by decide, (not_opened_is_skip _ sampleHandler sampleMessage sampleWorld
    (sampleHook "closed" "Fix typo") rfl (by decide)).1⟩

/-- Witness of C1: the title "Proposal: new scheduler" with a documentation-only
change set. -/
theorem proposal_title_gets_design_review_witness :
    (sampleHook "opened" "Proposal: new scheduler").IsOpened = true ∧
    Contains (ToLower (sampleEnv (Res.ok (sampleHook "opened" "Proposal: new scheduler")) true
        true none (true, []) (fun _ => none)) "Proposal: new scheduler") "proposal" = true ∧
    ∃ res, (runEvents (sampleEnv (Res.ok (sampleHook "opened" "Proposal: new scheduler")) true
        true none (true, []) (fun _ => none)) sampleHandler sampleMessage sampleWorld).filter
          Event.isApplyLabel =
        [Event.ApplyLabel (hookClient sampleHandler)
          (hookRepo (sampleHook "opened" "Proposal: new scheduler")) ⟨7⟩
          [ "1-design-review" ] res] :=
  ⟨by decide, by decide,
    (proposal_title_gets_design_review _ sampleHandler sampleMessage sampleWorld
      (sampleHook "opened" "Proposal: new scheduler") rfl (by decide) (by decide)).2
      samplePR rfl⟩

/-- C2: for an opened hook whose details were fetched, the run makes exactly
one ApplyLabel call and its label list has exactly one element, taken from
1-design-review, 3-docs-review, 0-triage; when the lower-cased title does not
contain "proposal" that element is 3-docs-review if isDocsOnly(pr) is true and
0-triage otherwise.  The switch itself always yields a one-element list, so
the guard `len(labels) > 0` is always true. -/
theorem non_proposal_label_and_single_label (env : Env) (h : Handler) (m : Message) (w : World)
    (prHook : PullRequestHook) (pr : PullRequest)
    (hparse : env.ParsePullRequestHook m.Body = Res.ok prHook)
    (hopen : prHook.IsOpened = true)
    (hpr : env.getPR w prHook.PullRequest.Url = Res.ok pr) :
    (Contains (ToLower env prHook.PullRequest.Title) "proposal" = false →
      ∃ res, (runEvents env h m w).filter Event.isApplyLabel =
        [Event.ApplyLabel (hookClient h) (hookRepo prHook) ⟨prHook.Number⟩
          [if env.isDocsOnly (w.emit (Event.getPR prHook.PullRequest.Url (Res.ok pr))) pr = true
            then "3-docs-review" else "0-triage"] res]) ∧
    (∃ label res, label ∈ [ "1-design-review", "3-docs-review", "0-triage" ] ∧
      (runEvents env h m w).filter Event.isApplyLabel =
        [Event.ApplyLabel (hookClient h) (hookRepo prHook) ⟨prHook.Number⟩ [label] res]) ∧
    (∀ w1, ∃ label, label ∈ [ "1-design-review", "3-docs-review", "0-triage" ] ∧
      (chooseLabels env prHook pr w1).1 = [label] ∧
      ((chooseLabels env prHook pr w1).1.length > 0) = True) := by
  obtain ⟨evs, ht, hs⟩ := HandleMessage_shape env h m w prHook hparse hopen
  rw [runEvents_eq env h m w evs ht]
  obtain ⟨cls, label, res, hc, hf⟩ := RunShape_applyLabel hs hpr
  refine ⟨?_, ⟨label, res, ClassShape_label hc, hf⟩, ?_⟩
  · intro hnp
    rcases hc with ⟨hp, -, -⟩ | ⟨hp, hd, -, rfl⟩ | ⟨hp, hd, -, rfl⟩
    · rw [hnp] at hp; exact absurd hp (by decide)
    · exact ⟨res, by rw [hf, hd]; rfl⟩
    · exact ⟨res, by rw [hf, hd]; rfl⟩
  · intro w1
    obtain ⟨cls1, label1, hl1, -, -, -, hc1⟩ := chooseLabels_shape env prHook pr w1
    exact ⟨label1, ClassShape_label hc1, hl1, by simp [hl1]⟩

/-- Witness of C2: the title "Fix typo in README.md" with a documentation-only
change set. -/
theorem non_proposal_label_and_single_label_witness :
    (sampleHook "opened" "Fix typo in README.md").IsOpened = true ∧
    ∃ label res, label ∈ [ "1-design-review", "3-docs-review", "0-triage" ] ∧
      (runEvents (sampleEnv (Res.ok (sampleHook "opened" "Fix typo in README.md")) true
        true none (true, []) (fun _ => none)) sampleHandler sampleMessage sampleWorld).filter
          Event.isApplyLabel =
        [Event.ApplyLabel (hookClient sampleHandler)
          (hookRepo (sampleHook "opened" "Fix typo in README.md")) ⟨7⟩ [label] res] :=
  ⟨by decide,
    (non_proposal_label_and_single_label _ sampleHandler sampleMessage sampleWorld
      (sampleHook "opened" "Fix typo in README.md") samplePR rfl (by decide) rfl).2.1⟩

/-- C5, counterexample: with unsigned commits and a merge conflict the run
posts two comments, not one; and with a merge conflict and a failing
AddComment the handler returns that error, not nil. -/
theorem conflict_one_comment_counterexample :
    (Event.checkout "/tmp/pr-7123456" "https://github.com/docker/docker" 7 (some Err.MergeError) ∈
        runEvents (sampleEnv (Res.ok (sampleHook "opened" "Fix typo")) false false
          (some Err.MergeError) (true, []) (fun _ => none))
          sampleHandler sampleMessage sampleWorld ∧
      ((runEvents (sampleEnv (Res.ok (sampleHook "opened" "Fix typo")) false false
          (some Err.MergeError) (true, []) (fun _ => none))
          sampleHandler sampleMessage sampleWorld).filter Event.isAddComment).length = 2) ∧
    (Event.checkout "/tmp/pr-7123456" "https://github.com/docker/docker" 7 (some Err.MergeError) ∈
        runEvents (sampleEnv (Res.ok (sampleHook "opened" "Fix typo")) false true
          (some Err.MergeError) (true, []) (fun _ => some (Err.other "rate limit")))
          sampleHandler sampleMessage sampleWorld ∧
      (HandleMessage (sampleEnv (Res.ok (sampleHook "opened" "Fix typo")) false true
          (some Err.MergeError) (true, []) (fun _ => some (Err.other "rate limit")))
          sampleHandler sampleMessage sampleWorld).1 = some (Err.other "rate limit")) := by
  decide

/-- C5, amended: in every run in which checkout returns MergeError, the
AddComment calls of the run are the signing-instructions comment (only when
commitsAreSigned(pr) is false, and then it succeeded) followed by exactly one
conflict notice; the handler returns what that last AddComment call returned:
nil when it succeeds, its error when it fails. -/
theorem conflict_posts_one_conflict_notice (env : Env) (h : Handler) (m : Message) (w : World)
    (temp url : String) (n : Int)
    (hco : Event.checkout temp url n (some Err.MergeError) ∈ runEvents env h m w) :
    ∃ prHook pr signed res,
      env.ParsePullRequestHook m.Body = Res.ok prHook ∧
      Event.commitsAreSigned pr signed ∈ runEvents env h m w ∧
      (runEvents env h m w).filter Event.isAddComment =
        (if signed = true then []
          else [Event.AddComment (hookClient h) (hookRepo prHook) (Itoa prHook.Number)
                  (signComment env pr) none]) ++
        [Event.AddComment (hookClient h) (hookRepo prHook) (Itoa prHook.Number)
          conflictComment res] ∧
      (HandleMessage env h m w).1 = res := by
  obtain ⟨prHook, hparse, hopen⟩ := run_started hco
  obtain ⟨evs, ht, hs⟩ := HandleMessage_shape env h m w prHook hparse hopen
  rw [runEvents_eq env h m w evs ht] at hco ⊢
  generalize (HandleMessage env h m w).1 = r at hs ⊢
  generalize (HandleMessage env h m w).2.dirs = dirs1 at hs
  refine ⟨prHook, ?_⟩
  rcases hs with ⟨e, hg, rfl, rfl, rfl⟩ | ⟨pr, cls, label, evs1, hg, rfl, hc, hl⟩
  · simp at hco
  · have hco1 : Event.checkout temp url n (some Err.MergeError) ∈ evs1 := by
      rcases hc with ⟨-, rfl, -⟩ | ⟨-, -, rfl, -⟩ | ⟨-, -, rfl, -⟩ <;> simpa using hco
    obtain ⟨signed, hsg, hf⟩ := LabelShape_conflict hl hco1
    refine ⟨pr, signed, r, hparse, ?_, ?_, rfl⟩
    · simp [hsg]
    · rw [← hf]
      rcases hc with ⟨-, rfl, -⟩ | ⟨-, -, rfl, -⟩ | ⟨-, -, rfl, -⟩ <;>
        simp [List.filter_cons, Event.isAddComment]

/-- C6: in every run in which checkout returns MergeError and every GitHub
call succeeds, the handler returns nil; a successful ApplyLabel call is among
the calls made before checkout; from checkout on the run is exactly: the
conflicting checkout, the conflict notice, the cleanup; checkGofmt is never
called and no format-violation comment is posted. -/
theorem conflict_after_label_stops_before_gofmt (env : Env) (h : Handler) (m : Message)
    (w : World) (temp url : String) (n : Int)
    (hco : Event.checkout temp url n (some Err.MergeError) ∈ runEvents env h m w)
    (hgh : ∀ e ∈ runEvents env h m w, e.githubError = none) :
    (HandleMessage env h m w).1 = none ∧
    ∃ prHook label,
      env.ParsePullRequestHook m.Body = Res.ok prHook ∧
      Event.ApplyLabel (hookClient h) (hookRepo prHook) ⟨prHook.Number⟩ [label] none ∈
        (runEvents env h m w).takeWhile (fun e => !e.isCheckout) ∧
      (runEvents env h m w).dropWhile (fun e => !e.isCheckout) =
        [Event.checkout temp url n (some Err.MergeError),
         Event.AddComment (hookClient h) (hookRepo prHook) (Itoa prHook.Number)
           conflictComment none,
         Event.RemoveAll temp] ∧
      (∀ e ∈ runEvents env h m w, e.isCheckGofmt = false) ∧
      (∀ e ∈ runEvents env h m w, ¬ e.isGofmtComment) := by
  obtain ⟨prHook, hparse, hopen⟩ := run_started hco
  obtain ⟨evs, ht, hs⟩ := HandleMessage_shape env h m w prHook hparse hopen
  rw [runEvents_eq env h m w evs ht] at hco hgh ⊢
  generalize (HandleMessage env h m w).1 = r at hs ⊢
  generalize (HandleMessage env h m w).2.dirs = dirs1 at hs
  rcases hs with ⟨e, hg, rfl, rfl, rfl⟩ | ⟨pr, cls, label, evs1, hg, rfl, hc, hl⟩
  · simp at hco
  · have hcls := ClassShape_events hc
    have hco1 : Event.checkout temp url n (some Err.MergeError) ∈ evs1 := by
      rcases hcls with rfl | ⟨b, rfl⟩ <;> simpa using hco
    have hgh1 : ∀ e ∈ evs1, e.githubError = none := by
      intro e he
      exact hgh e (by simp [he])
    obtain ⟨hr, hal, hdw, hcg, hgc⟩ := LabelShape_conflict_ok hl hco1 hgh1
    refine ⟨hr, prHook, label, hparse, ?_, ?_, ?_, ?_⟩
    · rcases hcls with rfl | ⟨b, rfl⟩
      · rw [List.nil_append, List.takeWhile_cons_of_pos (by rfl)]
        exact List.mem_cons_of_mem _ hal
      · rw [List.singleton_append, List.takeWhile_cons_of_pos (by rfl),
          List.takeWhile_cons_of_pos (by rfl)]
        exact List.mem_cons_of_mem _ (List.mem_cons_of_mem _ hal)
    · rcases hcls with rfl | ⟨b, rfl⟩
      · rw [List.nil_append, List.dropWhile_cons_of_pos (by rfl)]
        exact hdw
      · rw [List.singleton_append, List.dropWhile_cons_of_pos (by rfl),
          List.dropWhile_cons_of_pos (by rfl)]
        exact hdw
    · intro e he
      rcases hcls with rfl | ⟨b, rfl⟩ <;> simp at he
      · rcases he with rfl | he
        · rfl
        · exact hcg e he
      · rcases he with rfl | rfl | he
        · rfl
        · rfl
        · exact hcg e he
    · intro e he
      rcases hcls with rfl | ⟨b, rfl⟩ <;> simp at he
      · rcases he with rfl | he
        · exact not_isGofmtComment_of_not_addComment _ rfl
        · exact hgc e he
      · rcases he with rfl | rfl | he
        · exact not_isGofmtComment_of_not_addComment _ rfl
        · exact not_isGofmtComment_of_not_addComment _ rfl
        · exact hgc e he

/-- C7: on an opened hook, a failed step (getPR, ApplyLabel, any AddComment,
ioutil.TempDir, or checkout with an error other than MergeError) with error e
makes the handler return exactly e, and nothing but the deferred cleanup runs
after it; the handler returns nil exactly when no such step failed.  This is
proved twice.  First on the recorded calls: a recorded failure is the result
and only cleanup follows it.  Then on the oracles themselves, step by step
down the run: whenever the collaborator called next answers with an error e
in the world of that call, the handler returns e and the calls of the run end
with that call (and the cleanup, once the directory exists); for the two
comments that end a run, the handler returns whatever AddComment answered; and
the handler returns nil when the format check passes. -/
theorem failed_step_error_is_returned (env : Env) (h : Handler) (m : Message) (w : World)
    (prHook : PullRequestHook)
    (hparse : env.ParsePullRequestHook m.Body = Res.ok prHook)
    (hopen : prHook.IsOpened = true) :
    (∀ (pre : List Event) (ev : Event) (post : List Event) (e : Err),
      runEvents env h m w = pre ++ ev :: post → ev.failure = some e →
        (HandleMessage env h m w).1 = some e ∧ ∀ x ∈ post, x.isCleanup = true) ∧
    ((HandleMessage env h m w).1 = none ↔ ∀ ev ∈ runEvents env h m w, ev.failure = none) ∧
    (∀ e, env.getPR w prHook.PullRequest.Url = Res.error e →
      (HandleMessage env h m w).1 = some e ∧
      runEvents env h m w = [Event.getPR prHook.PullRequest.Url (Res.error e)]) ∧
    (∀ pr, env.getPR w prHook.PullRequest.Url = Res.ok pr →
      (∀ e, env.ApplyLabel (worldApplyLabel env prHook pr w) (hookClient h) (hookRepo prHook)
          ⟨prHook.Number⟩ (runLabels env prHook pr w) = some e →
        (HandleMessage env h m w).1 = some e ∧
        runEvents env h m w = eventsBeforeApplyLabel env prHook pr w ++
          [Event.ApplyLabel (hookClient h) (hookRepo prHook) ⟨prHook.Number⟩
            (runLabels env prHook pr w) (some e)]) ∧
      (env.ApplyLabel (worldApplyLabel env prHook pr w) (hookClient h) (hookRepo prHook)
          ⟨prHook.Number⟩ (runLabels env prHook pr w) = none →
        (∀ e, env.commitsAreSigned (worldSigning env h prHook pr w) pr = false →
          env.AddComment (worldSignComment env h prHook pr w) (hookClient h) (hookRepo prHook)
            (Itoa prHook.Number) (signComment env pr) = some e →
          (HandleMessage env h m w).1 = some e ∧
          runEvents env h m w = eventsBeforeSigning env h prHook pr w ++
            [Event.commitsAreSigned pr false,
             Event.AddComment (hookClient h) (hookRepo prHook) (Itoa prHook.Number)
               (signComment env pr) (some e)]) ∧
        (∀ signed, env.commitsAreSigned (worldSigning env h prHook pr w) pr = signed →
          (signed = false →
            env.AddComment (worldSignComment env h prHook pr w) (hookClient h)
              (hookRepo prHook) (Itoa prHook.Number) (signComment env pr) = none) →
          (∀ e, env.TempDir (worldTempDir env h prHook pr w signed) ""
              ("pr-" ++ Itoa prHook.Number) = Res.error e →
            (HandleMessage env h m w).1 = some e ∧
            runEvents env h m w = eventsBeforeTempDir env h prHook pr w signed ++
              [Event.TempDir "" ("pr-" ++ Itoa prHook.Number) (Res.error e)]) ∧
          (∀ d, env.TempDir (worldTempDir env h prHook pr w signed) ""
              ("pr-" ++ Itoa prHook.Number) = Res.ok d →
            (∀ e, env.checkout (worldCheckout env h prHook pr w signed d) d
                pr.Base.Repo.HTMLURL prHook.Number = some e → e ≠ Err.MergeError →
              (HandleMessage env h m w).1 = some e ∧
              runEvents env h m w = eventsBeforeTempDir env h prHook pr w signed ++
                [Event.TempDir "" ("pr-" ++ Itoa prHook.Number) (Res.ok d),
                 Event.checkout d pr.Base.Repo.HTMLURL prHook.Number (some e),
                 Event.RemoveAll d]) ∧
            (env.checkout (worldCheckout env h prHook pr w signed d) d
                pr.Base.Repo.HTMLURL prHook.Number = some Err.MergeError →
              (HandleMessage env h m w).1 =
                env.AddComment
                  (worldAfterCheckout env h prHook pr w signed d (some Err.MergeError))
                  (hookClient h) (hookRepo prHook) (Itoa prHook.Number) conflictComment ∧
              runEvents env h m w = eventsBeforeTempDir env h prHook pr w signed ++
                [Event.TempDir "" ("pr-" ++ Itoa prHook.Number) (Res.ok d),
                 Event.checkout d pr.Base.Repo.HTMLURL prHook.Number (some Err.MergeError),
                 Event.AddComment (hookClient h) (hookRepo prHook) (Itoa prHook.Number)
                   conflictComment
                   (env.AddComment
                     (worldAfterCheckout env h prHook pr w signed d (some Err.MergeError))
                     (hookClient h) (hookRepo prHook) (Itoa prHook.Number) conflictComment),
                 Event.RemoveAll d]) ∧
            (env.checkout (worldCheckout env h prHook pr w signed d) d
                pr.Base.Repo.HTMLURL prHook.Number = none →
              (∀ fs, env.checkGofmt (worldAfterCheckout env h prHook pr w signed d none) d pr
                  = (false, fs) →
                (HandleMessage env h m w).1 =
                  env.AddComment (worldGofmtComment env h prHook pr w signed d fs)
                    (hookClient h) (hookRepo prHook) (Itoa prHook.Number) (gofmtComment fs) ∧
                runEvents env h m w = eventsBeforeTempDir env h prHook pr w signed ++
                  [Event.TempDir "" ("pr-" ++ Itoa prHook.Number) (Res.ok d),
                   Event.checkout d pr.Base.Repo.HTMLURL prHook.Number none,
                   Event.checkGofmt d pr false fs,
                   Event.AddComment (hookClient h) (hookRepo prHook) (Itoa prHook.Number)
                     (gofmtComment fs)
                     (env.AddComment (worldGofmtComment env h prHook pr w signed d fs)
                       (hookClient h) (hookRepo prHook) (Itoa prHook.Number)
                       (gofmtComment fs)),
                   Event.RemoveAll d]) ∧
              (∀ fs, env.checkGofmt (worldAfterCheckout env h prHook pr w signed d none) d pr
                  = (true, fs) →
                (HandleMessage env h m w).1 = none ∧
                runEvents env h m w = eventsBeforeTempDir env h prHook pr w signed ++
                  [Event.TempDir "" ("pr-" ++ Itoa prHook.Number) (Res.ok d),
                   Event.checkout d pr.Base.Repo.HTMLURL prHook.Number none,
                   Event.checkGofmt d pr true fs,
                   Event.RemoveAll d])))))) := by
  obtain ⟨evs, ht, hs⟩ := HandleMessage_shape env h m w prHook hparse hopen
  have hst := RunShape_stops hs
  refine ⟨?_, ?_, ?_, ?_⟩
  · rw [runEvents_eq env h m w evs ht]
    exact stopsAtFailure_split hst
  · rw [runEvents_eq env h m w evs ht]
    exact stopsAtFailure_none hst
  · intro e hg
    exact end_getPR_fail hparse hopen hg
  · intro pr hg
    refine ⟨fun e ha => end_label_fail hparse hopen hg ha, fun ha => ⟨?_, ?_⟩⟩
    · intro e hsg hc
      exact end_sign_fail hparse hopen hg ha hsg hc
    · intro signed hsg hc
      refine ⟨fun e htd => end_temp_fail hparse hopen hg ha hsg hc htd, fun d htd => ⟨?_, ?_, ?_⟩⟩
      · intro e hk hne
        exact end_checkout_fail hparse hopen hg ha hsg hc htd hk hne
      · intro hk
        exact end_conflict hparse hopen hg ha hsg hc htd hk
      · intro hk
        exact ⟨fun fs hf => end_gofmt_bad hparse hopen hg ha hsg hc htd hk hf,
          fun fs hf => end_gofmt_good hparse hopen hg ha hsg hc htd hk hf⟩

/-- C8: in every run, if ioutil.TempDir succeeded and made the directory d,
then the last call of the run is os.RemoveAll(d), it is the only RemoveAll of
the run, and when the handler returns neither d nor anything below d is among
the directories; and a run in which TempDir did not succeed (it failed, or the
handler returned before it) leaves the directories exactly as they were and
calls no RemoveAll. -/
theorem working_copy_is_removed (env : Env) (h : Handler) (m : Message) (w : World) :
    (∀ dir pfx d, Event.TempDir dir pfx (Res.ok d) ∈ runEvents env h m w →
      (runEvents env h m w).getLast? = some (Event.RemoveAll d) ∧
      (runEvents env h m w).filter Event.isCleanup = [Event.RemoveAll d] ∧
      d ∉ (HandleMessage env h m w).2.dirs ∧
      (∀ p ∈ (HandleMessage env h m w).2.dirs, under d p = false ∧ p ∈ w.dirs)) ∧
    ((∀ dir pfx d, Event.TempDir dir pfx (Res.ok d) ∉ runEvents env h m w) →
      (HandleMessage env h m w).2.dirs = w.dirs ∧
      (runEvents env h m w).filter Event.isCleanup = []) := by
  cases hp : env.ParsePullRequestHook m.Body with
  | error e => simp [runEvents, HandleMessage, hp, World.log]
  | ok prHook =>
    cases ho : prHook.IsOpened with
    | false => simp [runEvents, HandleMessage, hp, ho]
    | true =>
      obtain ⟨evs, ht, hs⟩ := HandleMessage_shape env h m w prHook hp ho
      rw [runEvents_eq env h m w evs ht]
      generalize (HandleMessage env h m w).1 = r at hs
      generalize (HandleMessage env h m w).2.dirs = dirs1 at hs ⊢
      rcases hs with ⟨e, hg, rfl, rfl, rfl⟩ | ⟨pr, cls, label, evs1, hg, rfl, hc, hl⟩
      · simp [Event.isCleanup]
      · obtain ⟨h1, h2⟩ := LabelShape_cleanup hl
        have hcls := ClassShape_events hc
        have hfc : cls.filter Event.isCleanup = [] := by
          rcases hcls with rfl | ⟨b, rfl⟩ <;> simp [Event.isCleanup]
        have hmemiff : ∀ dir pfx d, Event.TempDir dir pfx (Res.ok d) ∈
            Event.getPR prHook.PullRequest.Url (Res.ok pr) :: (cls ++ evs1) ↔
            Event.TempDir dir pfx (Res.ok d) ∈ evs1 := by
          intro dir pfx d
          rcases hcls with rfl | ⟨b, rfl⟩ <;> simp
        refine ⟨?_, ?_⟩
        · intro dir pfx d hmem
          obtain ⟨hlast, hfilt, hdirs⟩ := h1 dir pfx d ((hmemiff dir pfx d).mp hmem)
          refine ⟨?_, ?_, ?_, ?_⟩
          · rw [← List.cons_append]
            exact getLast?_append_of_some hlast
          · simp [List.filter_cons, Event.isCleanup, hfc, hfilt]
          · rw [hdirs]
            intro hin
            have := (List.mem_filter.mp hin).2
            simp [under_self] at this
          · intro p hp1
            rw [hdirs] at hp1
            obtain ⟨hp2, hp3⟩ := List.mem_filter.mp hp1
            have hnu : under d p = false := by simpa using hp3
            refine ⟨hnu, ?_⟩
            rcases List.mem_cons.mp hp2 with rfl | hp4
            · rw [under_self] at hnu
              exact absurd hnu (by decide)
            · exact hp4
        · intro hno
          obtain ⟨hd, hf⟩ := h2 (fun dir pfx d hmem => hno dir pfx d ((hmemiff dir pfx d).mpr hmem))
          exact ⟨hd, by simp [List.filter_cons, Event.isCleanup, hfc, hf]⟩

/-- C9: when checkGofmt reports non-compliance with the file list fs, the run
from the format check on is exactly: the check, one AddComment whose body is
the fixed header, then strings.Join(fs, "\n"), a newline and the fixed footer,
then the cleanup; the handler returns what that AddComment returned; no
format-violation comment is posted before the check.  Read back line by line,
the joined list is fs again, each path once and in order (for a non-empty fs
whose paths hold no newline).  When checkGofmt reports compliance the run
posts no format-violation comment at all. -/
theorem gofmt_comment_lists_files (env : Env) (h : Handler) (m : Message) (w : World) :
    (∀ temp pr fs, Event.checkGofmt temp pr false fs ∈ runEvents env h m w →
      ∃ prHook, env.ParsePullRequestHook m.Body = Res.ok prHook ∧
        (runEvents env h m w).dropWhile (fun e => !e.isCheckGofmt) =
          [Event.checkGofmt temp pr false fs,
           Event.AddComment (hookClient h) (hookRepo prHook) (Itoa prHook.Number)
             (("These files are not properly gofmt'd:\n" ++ Join fs "\n" ++ "\n")
               ++ "Please reformat the above files using `gofmt -s -w` and ammend to the commit the result.")
             (HandleMessage env h m w).1,
           Event.RemoveAll temp] ∧
        (∀ e ∈ (runEvents env h m w).takeWhile (fun e => !e.isCheckGofmt),
          ¬ e.isGofmtComment) ∧
        (fs ≠ [] → (∀ p ∈ fs, '\n' ∉ p.data) →
          splitLines (Join fs "\n").data = fs.map String.data)) ∧
    (∀ temp pr fs, Event.checkGofmt temp pr true fs ∈ runEvents env h m w →
      ∀ e ∈ runEvents env h m w, ¬ e.isGofmtComment) := by
  have key : ∀ temp pr b fs, Event.checkGofmt temp pr b fs ∈ runEvents env h m w →
      ∃ prHook pr0 cls label evs1 dirs1,
        env.ParsePullRequestHook m.Body = Res.ok prHook ∧
        runEvents env h m w = Event.getPR prHook.PullRequest.Url (Res.ok pr0) :: (cls ++ evs1) ∧
        (cls = [] ∨ ∃ c, cls = [Event.isDocsOnly pr0 c]) ∧
        LabelShape env (hookClient h) (hookRepo prHook) prHook.Number pr0 [label] w.dirs
          (HandleMessage env h m w).1 evs1 dirs1 := by
    intro temp pr b fs hcg
    obtain ⟨prHook, hparse, hopen⟩ := run_started hcg
    obtain ⟨evs, ht, hs⟩ := HandleMessage_shape env h m w prHook hparse hopen
    rw [runEvents_eq env h m w evs ht] at hcg ⊢
    rcases hs with ⟨e, hg, rfl, -, -⟩ | ⟨pr0, cls, label, evs1, hg, rfl, hc, hl⟩
    · simp at hcg
    · exact ⟨prHook, pr0, cls, label, evs1, _, hparse, rfl, ClassShape_events hc, hl⟩
  refine ⟨?_, ?_⟩
  · intro temp pr fs hcg
    obtain ⟨prHook, pr0, cls, label, evs1, dirs1, hparse, hev, hcls, hl⟩ := key temp pr false fs hcg
    rw [hev] at hcg ⊢
    have hcg1 : Event.checkGofmt temp pr false fs ∈ evs1 := by
      rcases hcls with rfl | ⟨c, rfl⟩ <;> simpa using hcg
    obtain ⟨hdw, htw⟩ := (LabelShape_gofmt hl).1 temp pr fs hcg1
    refine ⟨prHook, hparse, ?_, ?_, splitLines_Join fs⟩
    · rcases hcls with rfl | ⟨c, rfl⟩
      · rw [List.nil_append, List.dropWhile_cons_of_pos (by rfl)]
        exact hdw
      · rw [List.singleton_append, List.dropWhile_cons_of_pos (by rfl),
          List.dropWhile_cons_of_pos (by rfl)]
        exact hdw
    · intro e he
      rcases hcls with rfl | ⟨c, rfl⟩
      · rw [List.nil_append, List.takeWhile_cons_of_pos (by rfl)] at he
        rcases List.mem_cons.mp he with rfl | he1
        · exact not_isGofmtComment_of_not_addComment _ rfl
        · exact htw e he1
      · rw [List.singleton_append, List.takeWhile_cons_of_pos (by rfl),
          List.takeWhile_cons_of_pos (by rfl)] at he
        rcases List.mem_cons.mp he with rfl | he1
        · exact not_isGofmtComment_of_not_addComment _ rfl
        · rcases List.mem_cons.mp he1 with rfl | he2
          · exact not_isGofmtComment_of_not_addComment _ rfl
          · exact htw e he2
  · intro temp pr fs hcg
    obtain ⟨prHook, pr0, cls, label, evs1, dirs1, hparse, hev, hcls, hl⟩ := key temp pr true fs hcg
    rw [hev] at hcg ⊢
    have hcg1 : Event.checkGofmt temp pr true fs ∈ evs1 := by
      rcases hcls with rfl | ⟨c, rfl⟩ <;> simpa using hcg
    have hall := (LabelShape_gofmt hl).2 temp pr fs hcg1
    intro e he
    rcases hcls with rfl | ⟨c, rfl⟩
    · rcases List.mem_cons.mp he with rfl | he1
      · exact not_isGofmtComment_of_not_addComment _ rfl
      · exact hall e (by simpa using he1)
    · rcases List.mem_cons.mp he with rfl | he1
      · exact not_isGofmtComment_of_not_addComment _ rfl
      · rcases List.mem_cons.mp he1 with rfl | he2
        · exact not_isGofmtComment_of_not_addComment _ rfl
        · exact hall e he2

/-- C10: on an opened hook, when every collaborator answers without error in
the world of its call (getPR, ApplyLabel, the signing comment if it is posted,
TempDir), checkout reports no conflict and checkGofmt reports all files
formatted, the handler returns nil and the calls of the run are exactly:
getPR, the label switch, the sleep, one successful ApplyLabel with one label,
commitsAreSigned, then the signing-instructions comment exactly when
commitsAreSigned(pr) answered false, then TempDir, checkout, checkGofmt and
the cleanup.  So with signed commits the run posts no comment at all, with
unsigned commits it posts exactly one comment, the signing instructions, after
ApplyLabel and before checkout; no format-violation comment is posted. -/
theorem clean_run_label_and_signing_comment (env : Env) (h : Handler) (m : Message)
    (w : World) (prHook : PullRequestHook) (pr : PullRequest) (signed : Bool) (d : String)
    (fs : List String)
    (hparse : env.ParsePullRequestHook m.Body = Res.ok prHook)
    (hopen : prHook.IsOpened = true)
    (hg : env.getPR w prHook.PullRequest.Url = Res.ok pr)
    (ha : env.ApplyLabel (worldApplyLabel env prHook pr w) (hookClient h) (hookRepo prHook)
      ⟨prHook.Number⟩ (runLabels env prHook pr w) = none)
    (hs : env.commitsAreSigned (worldSigning env h prHook pr w) pr = signed)
    (hc : signed = false →
      env.AddComment (worldSignComment env h prHook pr w) (hookClient h) (hookRepo prHook)
        (Itoa prHook.Number) (signComment env pr) = none)
    (ht : env.TempDir (worldTempDir env h prHook pr w signed) ""
      ("pr-" ++ Itoa prHook.Number) = Res.ok d)
    (hk : env.checkout (worldCheckout env h prHook pr w signed d) d pr.Base.Repo.HTMLURL
      prHook.Number = none)
    (hf : env.checkGofmt (worldAfterCheckout env h prHook pr w signed d none) d pr
      = (true, fs)) :
    (HandleMessage env h m w).1 = none ∧
    (∃ label, label ∈ [ "1-design-review", "3-docs-review", "0-triage" ] ∧
      runLabels env prHook pr w = [label]) ∧
    runEvents env h m w =
      Event.getPR prHook.PullRequest.Url (Res.ok pr) :: (classEvents env prHook pr w ++
        ([Event.Sleep (30 * Second),
          Event.ApplyLabel (hookClient h) (hookRepo prHook) ⟨prHook.Number⟩
            (runLabels env prHook pr w) none,
          Event.commitsAreSigned pr signed] ++
        ((if signed = true then []
          else [Event.AddComment (hookClient h) (hookRepo prHook) (Itoa prHook.Number)
                  (signComment env pr) none]) ++
        [Event.TempDir "" ("pr-" ++ Itoa prHook.Number) (Res.ok d),
          Event.checkout d pr.Base.Repo.HTMLURL prHook.Number none,
          Event.checkGofmt d pr true fs,
          Event.RemoveAll d]))) ∧
    (runEvents env h m w).filter Event.isApplyLabel =
      [Event.ApplyLabel (hookClient h) (hookRepo prHook) ⟨prHook.Number⟩
        (runLabels env prHook pr w) none] ∧
    (runEvents env h m w).filter Event.isAddComment =
      (if signed = true then []
        else [Event.AddComment (hookClient h) (hookRepo prHook) (Itoa prHook.Number)
                (signComment env pr) none]) ∧
    (∀ e ∈ runEvents env h m w, ¬ e.isGofmtComment) := by
  obtain ⟨hr, hev⟩ := end_gofmt_good hparse hopen hg ha hs hc ht hk hf
  have hev2 : runEvents env h m w =
      Event.getPR prHook.PullRequest.Url (Res.ok pr) :: (classEvents env prHook pr w ++
        ([Event.Sleep (30 * Second),
          Event.ApplyLabel (hookClient h) (hookRepo prHook) ⟨prHook.Number⟩
            (runLabels env prHook pr w) none,
          Event.commitsAreSigned pr signed] ++
        ((if signed = true then []
          else [Event.AddComment (hookClient h) (hookRepo prHook) (Itoa prHook.Number)
                  (signComment env pr) none]) ++
        [Event.TempDir "" ("pr-" ++ Itoa prHook.Number) (Res.ok d),
          Event.checkout d pr.Base.Repo.HTMLURL prHook.Number none,
          Event.checkGofmt d pr true fs,
          Event.RemoveAll d]))) := by
    rw [hev]
    simp [eventsBeforeTempDir, eventsBeforeSigning, eventsBeforeApplyLabel]
  refine ⟨hr, runLabels_mem env prHook pr w, hev2, ?_, ?_, ?_⟩
  · rw [hev2]
    rcases classEvents_cases env prHook pr w with hcl | ⟨b, hcl⟩ <;> rw [hcl] <;>
      cases signed <;> simp [Event.isApplyLabel]
  · rw [hev2]
    rcases classEvents_cases env prHook pr w with hcl | ⟨b, hcl⟩ <;> rw [hcl] <;>
      cases signed <;> simp [Event.isAddComment]
  · rw [hev2]
    rcases classEvents_cases env prHook pr w with hcl | ⟨b, hcl⟩ <;> rw [hcl] <;>
      cases signed <;> simp [Event.isGofmtComment, signComment_ne_gofmtComment]

/-- Witness of C5 as amended: unsigned commits and a merge conflict. -/
theorem conflict_posts_one_conflict_notice_witness :
    Event.checkout "/tmp/pr-7123456" "https://github.com/docker/docker" 7 (some Err.MergeError) ∈
        runEvents (sampleEnv (Res.ok (sampleHook "opened" "Fix typo")) false false
          (some Err.MergeError) (true, []) (fun _ => none))
          sampleHandler sampleMessage sampleWorld ∧
    ∃ prHook pr signed res,
      (sampleEnv (Res.ok (sampleHook "opened" "Fix typo")) false false
          (some Err.MergeError) (true, []) (fun _ => none)).ParsePullRequestHook
          sampleMessage.Body = Res.ok prHook ∧
      Event.commitsAreSigned pr signed ∈
        runEvents (sampleEnv (Res.ok (sampleHook "opened" "Fix typo")) false false
          (some Err.MergeError) (true, []) (fun _ => none))
          sampleHandler sampleMessage sampleWorld ∧
      (runEvents (sampleEnv (Res.ok (sampleHook "opened" "Fix typo")) false false
          (some Err.MergeError) (true, []) (fun _ => none))
          sampleHandler sampleMessage sampleWorld).filter Event.isAddComment =
        (if signed = true then []
          else [Event.AddComment (hookClient sampleHandler) (hookRepo prHook)
                  (Itoa prHook.Number)
                  (signComment (sampleEnv (Res.ok (sampleHook "opened" "Fix typo")) false false
                    (some Err.MergeError) (true, []) (fun _ => none)) pr) none]) ++
        [Event.AddComment (hookClient sampleHandler) (hookRepo prHook) (Itoa prHook.Number)
          conflictComment res] ∧
      (HandleMessage (sampleEnv (Res.ok (sampleHook "opened" "Fix typo")) false false
          (some Err.MergeError) (true, []) (fun _ => none))
          sampleHandler sampleMessage sampleWorld).1 = res :=
  ⟨by decide,
    conflict_posts_one_conflict_notice _ sampleHandler sampleMessage sampleWorld
      "/tmp/pr-7123456" "https://github.com/docker/docker" 7 (by decide)⟩

/-- Witness of C6: a merge conflict on a signed pull request, every GitHub
call succeeding. -/
theorem conflict_after_label_stops_before_gofmt_witness :
    Event.checkout "/tmp/pr-7123456" "https://github.com/docker/docker" 7 (some Err.MergeError) ∈
        runEvents (sampleEnv (Res.ok (sampleHook "opened" "Fix typo")) false true
          (some Err.MergeError) (true, []) (fun _ => none))
          sampleHandler sampleMessage sampleWorld ∧
    (∀ e ∈ runEvents (sampleEnv (Res.ok (sampleHook "opened" "Fix typo")) false true
          (some Err.MergeError) (true, []) (fun _ => none))
          sampleHandler sampleMessage sampleWorld, e.githubError = none) ∧
    (HandleMessage (sampleEnv (Res.ok (sampleHook "opened" "Fix typo")) false true
          (some Err.MergeError) (true, []) (fun _ => none))
          sampleHandler sampleMessage sampleWorld).1 = none :=
  ⟨by decide, by decide,
    (conflict_after_label_stops_before_gofmt _ sampleHandler sampleMessage sampleWorld
      "/tmp/pr-7123456" "https://github.com/docker/docker" 7 (by decide) (by decide)).1⟩

/-- Witness of C7: commitsAreSigned answers false and the signing-instructions
comment fails with "rate limit"; the handler returns that error and the run
ends with that comment. -/
theorem failed_step_error_is_returned_witness :
    (sampleHook "opened" "Fix typo").IsOpened = true ∧
    (sampleEnv (Res.ok (sampleHook "opened" "Fix typo")) false false none (true, [])
        (fun _ => some (Err.other "rate limit"))).AddComment
      (worldSignComment (sampleEnv (Res.ok (sampleHook "opened" "Fix typo")) false false none
        (true, []) (fun _ => some (Err.other "rate limit"))) sampleHandler
        (sampleHook "opened" "Fix typo") samplePR sampleWorld)
      (hookClient sampleHandler) (hookRepo (sampleHook "opened" "Fix typo"))
      (Itoa (sampleHook "opened" "Fix typo").Number)
      (signComment (sampleEnv (Res.ok (sampleHook "opened" "Fix typo")) false false none
        (true, []) (fun _ => some (Err.other "rate limit"))) samplePR)
      = some (Err.other "rate limit") ∧
    (HandleMessage (sampleEnv (Res.ok (sampleHook "opened" "Fix typo")) false false none
        (true, []) (fun _ => some (Err.other "rate limit")))
        sampleHandler sampleMessage sampleWorld).1 = some (Err.other "rate limit") ∧
    runEvents (sampleEnv (Res.ok (sampleHook "opened" "Fix typo")) false false none
        (true, []) (fun _ => some (Err.other "rate limit")))
        sampleHandler sampleMessage sampleWorld =
      eventsBeforeSigning (sampleEnv (Res.ok (sampleHook "opened" "Fix typo")) false false none
        (true, []) (fun _ => some (Err.other "rate limit"))) sampleHandler
        (sampleHook "opened" "Fix typo") samplePR sampleWorld ++
      [Event.commitsAreSigned samplePR false,
       Event.AddComment (hookClient sampleHandler) (hookRepo (sampleHook "opened" "Fix typo"))
         (Itoa (sampleHook "opened" "Fix typo").Number)
         (signComment (sampleEnv (Res.ok (sampleHook "opened" "Fix typo")) false false none
           (true, []) (fun _ => some (Err.other "rate limit"))) samplePR)
         (some (Err.other "rate limit"))] :=
  ⟨by decide, rfl,
    ((((failed_step_error_is_returned _ sampleHandler sampleMessage sampleWorld
      (sampleHook "opened" "Fix typo") rfl (by decide)).2.2.2 samplePR rfl).2 rfl).1
        (Err.other "rate limit") rfl rfl)⟩

/-- Witness of C8: a run that goes through to the end. -/
theorem working_copy_is_removed_witness :
    Event.TempDir "" "pr-7" (Res.ok "/tmp/pr-7123456") ∈
        runEvents (sampleEnv (Res.ok (sampleHook "opened" "Fix typo")) false true none
          (true, []) (fun _ => none)) sampleHandler sampleMessage sampleWorld ∧
    "/tmp/pr-7123456" ∉
        (HandleMessage (sampleEnv (Res.ok (sampleHook "opened" "Fix typo")) false true none
          (true, []) (fun _ => none)) sampleHandler sampleMessage sampleWorld).2.dirs :=
  ⟨by decide,
    ((working_copy_is_removed _ sampleHandler sampleMessage sampleWorld).1
      "" "pr-7" "/tmp/pr-7123456" (by decide)).2.2.1⟩

/-- Witness of C9: two files are not formatted. -/
theorem gofmt_comment_lists_files_witness :
    Event.checkGofmt "/tmp/pr-7123456" samplePR false [ "api/server.go", "daemon/daemon.go" ] ∈
        runEvents (sampleEnv (Res.ok (sampleHook "opened" "Fix typo")) false true none
          (false, [ "api/server.go", "daemon/daemon.go" ]) (fun _ => none))
          sampleHandler sampleMessage sampleWorld ∧
    ∃ prHook,
      (sampleEnv (Res.ok (sampleHook "opened" "Fix typo")) false true none
          (false, [ "api/server.go", "daemon/daemon.go" ]) (fun _ => none)).ParsePullRequestHook
          sampleMessage.Body = Res.ok prHook ∧
      (runEvents (sampleEnv (Res.ok (sampleHook "opened" "Fix typo")) false true none
          (false, [ "api/server.go", "daemon/daemon.go" ]) (fun _ => none))
          sampleHandler sampleMessage sampleWorld).dropWhile (fun e => !e.isCheckGofmt) =
        [Event.checkGofmt "/tmp/pr-7123456" samplePR false [ "api/server.go", "daemon/daemon.go" ],
         Event.AddComment (hookClient sampleHandler) (hookRepo prHook) (Itoa prHook.Number)
           (("These files are not properly gofmt'd:\n" ++
               Join [ "api/server.go", "daemon/daemon.go" ] "\n" ++ "\n")
             ++ "Please reformat the above files using `gofmt -s -w` and ammend to the commit the result.")
           (HandleMessage (sampleEnv (Res.ok (sampleHook "opened" "Fix typo")) false true none
             (false, [ "api/server.go", "daemon/daemon.go" ]) (fun _ => none))
             sampleHandler sampleMessage sampleWorld).1,
         Event.RemoveAll "/tmp/pr-7123456"] ∧
      (∀ e ∈ (runEvents (sampleEnv (Res.ok (sampleHook "opened" "Fix typo")) false true none
          (false, [ "api/server.go", "daemon/daemon.go" ]) (fun _ => none))
          sampleHandler sampleMessage sampleWorld).takeWhile (fun e => !e.isCheckGofmt),
        ¬ e.isGofmtComment) ∧
      ([ "api/server.go", "daemon/daemon.go" ] ≠ [] →
        (∀ p ∈ [ "api/server.go", "daemon/daemon.go" ], '\n' ∉ p.data) →
        splitLines (Join [ "api/server.go", "daemon/daemon.go" ] "\n").data =
          [ "api/server.go", "daemon/daemon.go" ].map String.data) :=
  ⟨by decide,
    (gofmt_comment_lists_files _ sampleHandler sampleMessage sampleWorld).1
      "/tmp/pr-7123456" samplePR [ "api/server.go", "daemon/daemon.go" ] (by decide)⟩

/-- Witness of C10: commitsAreSigned answers false and everything else goes
well; the only comment of the run is the signing instructions. -/
theorem clean_run_label_and_signing_comment_witness :
    (sampleHook "opened" "Fix typo in README.md").IsOpened = true ∧
    (sampleEnv (Res.ok (sampleHook "opened" "Fix typo in README.md")) false false none
        (true, []) (fun _ => none)).commitsAreSigned
      (worldSigning (sampleEnv (Res.ok (sampleHook "opened" "Fix typo in README.md")) false
        false none (true, []) (fun _ => none)) sampleHandler
        (sampleHook "opened" "Fix typo in README.md") samplePR sampleWorld) samplePR = false ∧
    (HandleMessage (sampleEnv (Res.ok (sampleHook "opened" "Fix typo in README.md")) false
        false none (true, []) (fun _ => none)) sampleHandler sampleMessage sampleWorld).1
      = none ∧
    (runEvents (sampleEnv (Res.ok (sampleHook "opened" "Fix typo in README.md")) false
        false none (true, []) (fun _ => none)) sampleHandler sampleMessage
        sampleWorld).filter Event.isAddComment =
      [Event.AddComment (hookClient sampleHandler)
        (hookRepo (sampleHook "opened" "Fix typo in README.md"))
        (Itoa (sampleHook "opened" "Fix typo in README.md").Number)
        (signComment (sampleEnv (Res.ok (sampleHook "opened" "Fix typo in README.md")) false
          false none (true, []) (fun _ => none)) samplePR) none] :=
  ⟨by decide, rfl,
    (clean_run_label_and_signing_comment _ sampleHandler sampleMessage sampleWorld
      (sampleHook "opened" "Fix typo in README.md") samplePR false "/tmp/pr-7123456" []
      rfl (by decide) rfl rfl rfl (fun _ => rfl) rfl rfl rfl).1,
    (clean_run_label_and_signing_comment _ sampleHandler sampleMessage sampleWorld
      (sampleHook "opened" "Fix typo in README.md") samplePR false "/tmp/pr-7123456" []
      rfl (by decide) rfl rfl rfl (fun _ => rfl) rfl rfl rfl).2.2.2.2.1⟩

end GhPatchParser
